import Mathlib

/-!
# Verification of `sem_and_share.cpp`

A shallow embedding of the semaphore/shared-memory program in
`src/sem_and_share.cpp` (Ryan Seys, 2012).  The program creates a set of
6 System V semaphores — one binary semaphore per database file
(indices 0..4, each initialized to 1) and a sixth "critical" semaphore
(index 5, initialized to 4) — plus 5 shared-memory integers (busy
flags, initialized to 0), forks 5 child processes each running
`open_and_write(semSet, shm_ary, i)`, waits for all children, then
destroys the shared memory segments and the semaphore set.

The embedding models each child as the sequence of observable
operations that `open_and_write` performs, and the whole system as an
interleaving semantics: a scheduler step picks a child and executes its
next operation if it is enabled (a semaphore decrement is enabled only
when the semaphore value is positive, exactly the blocking behaviour of
`semop` with `sem_op = -1`).
-/

set_option autoImplicit false
set_option maxRecDepth 40000

namespace SemAndShare

/-- `PROC_COUNT` from `main`: the number of child processes. -/
def PROC_COUNT : Nat := 5

/-- `int sem1 = i;` in `open_and_write`: index of the first resource
semaphore required by child `i`. -/
def sem1 (i : Nat) : Nat := i

/-- `int sem2 = (i + 1 == 5) ? 0 : i + 1;` in `open_and_write`: index of
the second resource semaphore required by child `i`. -/
def sem2 (i : Nat) : Nat := if i + 1 = 5 then 0 else i + 1

/-- The `db1filename` assigned by the `switch(i)` statement in
`open_and_write`.  The switch has no default case and `i` only ever
ranges over `0..4`; out-of-range indices are mapped to `""`. -/
def db1filename (i : Nat) : String :=
  match i with
  | 0 => "faculty.txt"
  | 1 => "students.txt"
  | 2 => "statistics.txt"
  | 3 => "staff.txt"
  | 4 => "salary.txt"
  | _ => ""

/-- The `db2filename` assigned by the `switch(i)` statement in
`open_and_write`. -/
def db2filename (i : Nat) : String :=
  match i with
  | 0 => "students.txt"
  | 1 => "statistics.txt"
  | 2 => "staff.txt"
  | 3 => "salary.txt"
  | 4 => "faculty.txt"
  | _ => ""

/-- The `systemName` assigned by the `switch(i)` statement in
`open_and_write`. -/
def systemName (i : Nat) : String :=
  match i with
  | 0 => "Courses System"
  | 1 => "GPA Computation System"
  | 2 => "University Statistics System"
  | 3 => "Staff Management System"
  | 4 => "Faculty Payroll System"
  | _ => ""

/-- One observable operation of a child process.

* `acquire k` — `acquire_resource(semSet, k)`: `semop` with
  `sem_op = -1` on semaphore `k` (blocks while the value is 0).
* `release k` — `release_resource(semSet, k)`: `semop` with
  `sem_op = +1` on semaphore `k` (never blocks).
* `checkSetFlag r` — the `if(*shm_ary[r] == 0) *shm_ary[r] = 1; else
  { cout << "ERROR..."; exit(-1); }` block.
* `clearFlag r` — `*shm_ary[r] = 0;`.
* `append f used` — one `db << ...` line appended to file `f`
  (`used = true` for the "Being used by" record, `false` for the
  "Free from the" record). -/
inductive Op where
  | acquire (k : Nat)
  | release (k : Nat)
  | checkSetFlag (r : Nat)
  | clearFlag (r : Nat)
  | append (f : String) (used : Bool)
  deriving DecidableEq, Repr

/-- The body of `open_and_write(semSet, shm_ary, i)` as the ordered list
of its observable operations.  The file `open`/`close` calls and the
`sleep(1)` calls do not touch the semaphores, the shared memory or the
files' contents, so they contribute no operation. -/
def open_and_write (i : Nat) : List Op :=
  [ .acquire 5,                       -- acquire_resource(semSet, 5)
    .acquire (sem1 i),                -- acquire_resource(semSet, sem1)
    .acquire (sem2 i),                -- acquire_resource(semSet, sem2)
    .checkSetFlag (sem1 i),           -- if(*shm_ary[sem1]==0) ... else exit(-1)
    .checkSetFlag (sem2 i),           -- if(*shm_ary[sem2]==0) ... else exit(-1)
    .append (db1filename i) true,     -- db1 << "Being used by " ...
    .append (db2filename i) true,     -- db2 << "Being used by " ...
    .append (db1filename i) false,    -- db1 << "Free from the " ...
    .append (db2filename i) false,    -- db2 << "Free from the " ...
    .clearFlag (sem1 i),              -- *shm_ary[sem1] = 0
    .release (sem1 i),                -- release_resource(semSet, sem1)
    .clearFlag (sem2 i),              -- *shm_ary[sem2] = 0
    .release (sem2 i),                -- release_resource(semSet, sem2)
    .release 5 ]                      -- release_resource(semSet, 5)

/-- Number of operations in each child's program. -/
def progLen : Nat := 14

/-- State of the whole system.

* `sems k` — current value of semaphore `k` (a `Nat`: `semop` with
  `sem_op = -1` blocks rather than going below zero).
* `flags r` — current value of the shared-memory busy flag for
  resource `r` (`*shm_ary[r]`).
* `pc w` — how many operations of `open_and_write w` child `w` has
  completed (`14` = the child has returned and called `exit(0)`, or has
  died via `exit(-1)`).
* `aborted w` — whether child `w` took the `exit(-1)` branch of a
  `checkSetFlag` operation.
* `log` — the records appended to the files so far, in order:
  `(filename, writing child, used?)`. -/
structure SysState where
  sems : Nat → Nat
  flags : Nat → Nat
  pc : Nat → Nat
  aborted : Nat → Bool
  log : List (String × Nat × Bool)

/-- The state after `main` has initialized the semaphores
(`init_sem(semSet, sem, 1)` for `sem = 0..4`, `init_sem(semSet, 5, 4)`)
and the shared memory (`*shm_ary[sem] = 0`), before any child runs. -/
def initState : SysState where
  sems := fun k => if k = 5 then 4 else if k < 5 then 1 else 0
  flags := fun _ => 0
  pc := fun _ => 0
  aborted := fun _ => false
  log := []

/-- A child dying via `exit(-1)` releases the semaphores it still
holds: every `semop` in the program uses `sem_flg = SEM_UNDO`, so the
kernel reverts the process's outstanding semaphore adjustments when it
exits.  Child `w` with program counter `p` holds the gate semaphore 5
for `1 ≤ p ≤ 13`, semaphore `sem1 w` for `2 ≤ p ≤ 10` and semaphore
`sem2 w` for `3 ≤ p ≤ 12`. -/
def undoSems (w p : Nat) (sems : Nat → Nat) : Nat → Nat := fun k =>
  sems k
    + (if k = 5 ∧ 1 ≤ p ∧ p ≤ 13 then 1 else 0)
    + (if k = sem1 w ∧ 2 ≤ p ∧ p ≤ 10 then 1 else 0)
    + (if k = sem2 w ∧ 3 ≤ p ∧ p ≤ 12 then 1 else 0)

/-- Execute one operation of child `w` on state `s`.  `avail f` says
whether file `f` can be written (an append to an unavailable file is
silently lost — `ofstream` just sets its failbit, which the program
never checks). -/
def execOp (avail : String → Bool) (w : Nat) (op : Op) (s : SysState) : SysState :=
  match op with
  | .acquire k =>
      if s.sems k = 0 then s   -- semop blocks: no state change
      else { s with sems := Function.update s.sems k (s.sems k - 1),
                    pc := Function.update s.pc w (s.pc w + 1) }
  | .release k =>
      { s with sems := Function.update s.sems k (s.sems k + 1),
               pc := Function.update s.pc w (s.pc w + 1) }
  | .checkSetFlag r =>
      if s.flags r = 0 then
        { s with flags := Function.update s.flags r 1,
                 pc := Function.update s.pc w (s.pc w + 1) }
      else  -- "ERROR: Resources are in use!"; exit(-1)
        { s with pc := Function.update s.pc w progLen,
                 aborted := Function.update s.aborted w true,
                 sems := undoSems w (s.pc w) s.sems }
  | .clearFlag r =>
      { s with flags := Function.update s.flags r 0,
               pc := Function.update s.pc w (s.pc w + 1) }
  | .append f used =>
      { s with pc := Function.update s.pc w (s.pc w + 1),
               log := if avail f then s.log ++ [(f, w, used)] else s.log }

/-- One scheduler step: child `w` (if it exists and has not finished)
attempts its next operation. -/
def wstep (avail : String → Bool) (s : SysState) (w : Nat) : SysState :=
  if w < PROC_COUNT then
    match (open_and_write w).get? (s.pc w) with
    | some op => execOp avail w op s
    | none => s
  else s

/-- Run a whole schedule (a list of child indices) from the initial
state. -/
def run (avail : String → Bool) (sch : List Nat) : SysState :=
  sch.foldl (wstep avail) initState

/-- A state is reachable iff some schedule produces it. -/
def Reachable (avail : String → Bool) (s : SysState) : Prop :=
  ∃ sch : List Nat, run avail sch = s

/-- Exit status of child `w` in state `s`: `exit(-1)` on the protocol
violation branch, otherwise `exit(0)` back in `main` — the child's exit
status never depends on whether its file writes succeeded. -/
def workerExitCode (s : SysState) (w : Nat) : Int :=
  if s.aborted w then -1 else 0

/-! ## Holding intervals and counting

A child's program counter determines which semaphores it currently
holds and which busy flags it has set:

* it is "inside the gate" (has completed `acquire 5` and not yet
  executed `release 5`) for `1 ≤ pc ≤ 13`;
* it holds semaphore `sem1 w` for `2 ≤ pc ≤ 10`;
* it holds semaphore `sem2 w` for `3 ≤ pc ≤ 12`;
* it has the flag of resource `sem1 w` set for `4 ≤ pc ≤ 9`;
* it has the flag of resource `sem2 w` set for `5 ≤ pc ≤ 11`. -/

/-- Child with program counter `p` is inside the admission gate. -/
def inGate (p : Nat) : Bool := decide (1 ≤ p ∧ p ≤ 13)

/-- Child with program counter `p` holds its first resource semaphore. -/
def holds1 (p : Nat) : Bool := decide (2 ≤ p ∧ p ≤ 10)

/-- Child with program counter `p` holds its second resource semaphore. -/
def holds2 (p : Nat) : Bool := decide (3 ≤ p ∧ p ≤ 12)

/-- Child with program counter `p` has set its first resource's flag. -/
def flagged1 (p : Nat) : Bool := decide (4 ≤ p ∧ p ≤ 9)

/-- Child with program counter `p` has set its second resource's flag. -/
def flagged2 (p : Nat) : Bool := decide (5 ≤ p ∧ p ≤ 11)

/-- Child `w` holds the lock of resource `r` in state `s`. -/
def holdsRes (s : SysState) (w r : Nat) : Bool :=
  (sem1 w == r && holds1 (s.pc w)) || (sem2 w == r && holds2 (s.pc w))

/-- Child `w` has resource `r`'s busy flag set in state `s`. -/
def flagsRes (s : SysState) (w r : Nat) : Bool :=
  (sem1 w == r && flagged1 (s.pc w)) || (sem2 w == r && flagged2 (s.pc w))

/-- Number of children (out of the 5) satisfying `f`. -/
def countW (f : Nat → Bool) : Nat :=
  (if f 0 then 1 else 0) + (if f 1 then 1 else 0) + (if f 2 then 1 else 0)
    + (if f 3 then 1 else 0) + (if f 4 then 1 else 0)

/-- Number of children currently inside the admission gate. -/
def gateCount (s : SysState) : Nat := countW (fun w => inGate (s.pc w))

/-- Number of children currently holding resource `r`'s lock. -/
def holders (s : SysState) (r : Nat) : Nat := countW (fun w => holdsRes s w r)

/-- Number of children that have resource `r`'s busy flag set. -/
def flaggers (s : SysState) (r : Nat) : Nat := countW (fun w => flagsRes s w r)

/-- The system invariant, preserved by every scheduler step:

* every program counter is at most 14;
* the gate semaphore's value plus the number of children inside the
  gate is the gate's initial value 4;
* each resource semaphore's value plus the number of holders of that
  resource is its initial value 1 (so there is at most one holder);
* each resource's busy flag equals the number of children that set it;
* no child has taken the `exit(-1)` branch. -/
def Inv (s : SysState) : Prop :=
  (∀ w, w < 5 → s.pc w ≤ 14) ∧
  s.sems 5 + gateCount s = 4 ∧
  (∀ r, r < 5 → s.sems r + holders s r = 1) ∧
  (∀ r, r < 5 → s.flags r = flaggers s r) ∧
  (∀ w, w < 5 → s.aborted w = false)

/-- All five children have terminated (each has either returned from
`open_and_write` and called `exit(0)`, or died via `exit(-1)`). -/
def Final (s : SysState) : Prop := ∀ w, w < 5 → s.pc w = 14

/-- Total progress measure: the sum of the five program counters. -/
def pcSum (s : SysState) : Nat := s.pc 0 + s.pc 1 + s.pc 2 + s.pc 3 + s.pc 4

/-- The schedule that runs child 0 to completion, then child 1, and so
on (one legal interleaving of the five processes). -/
def seqSched : List Nat := (List.range 5).flatMap (fun w => List.replicate 14 w)

/-- Two system states agree on everything except possibly the list of
records appended to the files. -/
def CoreEq (s t : SysState) : Prop :=
  s.sems = t.sems ∧ s.flags = t.flags ∧ s.pc = t.pc ∧ s.aborted = t.aborted

/-- Sink availability in the fault-isolation scenario: the file
`statistics.txt` (child 2's first database, child 1's second) cannot be
written. -/
def statsUnavailable : String → Bool := fun f => ! (f == "statistics.txt")

/-- A deliberately corrupted start state used to exercise the
`ERROR: Resources are in use!` branch: resource 0's shared-memory busy
flag is already 1 before any child runs (something the program itself
never produces — it requires the locking discipline to have failed). -/
def corruptedState : SysState :=
  { initState with flags := fun r => if r = 0 then 1 else 0 }

/-- The sequential schedule run from the corrupted start state. -/
def corruptedRun : SysState := seqSched.foldl (wstep (fun _ => true)) corruptedState

/-- Number of records child `w` has appended to file `f` after
completing the first `p` operations of its program, assuming every file
is writable. -/
def appended (w : Nat) (f : String) (p : Nat) : Nat :=
  ((open_and_write w).take p).countP (fun op => match op with
    | .append g _ => g == f
    | _ => false)

/-- Total number of records appended to file `f` by all five children,
according to their program counters. -/
def appendedSum (s : SysState) (f : String) : Nat :=
  appended 0 f (s.pc 0) + appended 1 f (s.pc 1) + appended 2 f (s.pc 2)
    + appended 3 f (s.pc 3) + appended 4 f (s.pc 4)

/-- The file log matches the per-child append accounting (stated for
runs in which every file is writable). -/
def LogInv (s : SysState) : Prop :=
  ∀ f : String, s.log.countP (fun e => e.1 == f) = appendedSum s f

/-- How many records executing `op` appends to file `f`. -/
def appendInc (f : String) (op : Op) : Nat :=
  match op with
  | .append g _ => if g == f then 1 else 0
  | _ => 0

/-- `op` is a potentially blocking operation: only `acquire` (a `semop`
with `sem_op = -1`) can block; `semop` with `sem_op = +1`, shared-memory
accesses and file writes never do. -/
def isAcquire : Op → Bool
  | .acquire _ => true
  | _ => false

/-- Outcome of one run of `main`, as far as resource management is
concerned. -/
structure MainOutcome where
  exitCode : Int
  semSetRemoved : Bool
  shmCreated : List Nat
  shmDestroyed : List Nat
  forked : List Nat
  waited : Bool

/-- The Coordinator (`main`), modelled on its allocation / launch /
teardown skeleton.  `shmOk k` says whether the `create_shared_mem_id()`
call in loop iteration `k` succeeds, and `forkOk i` whether the
`fork()` call for child `i` succeeds.

* If `shmget` fails at iteration `k`, `main` prints
  "Failed getting shared memory" and calls `exit(-1)` on the spot: the
  semaphore set and the `k` segments already created are not destroyed,
  and no child has been forked yet.
* Otherwise, if `fork` fails for child `i`, `main` prints "Fork Failed"
  and calls `exit(-1)`: nothing is destroyed, and the `i` children
  already forked are neither waited for nor cleaned up.
* Otherwise `main` waits for all children (ignoring their exit
  statuses), destroys the 5 shared-memory segments, removes the
  semaphore set, and calls `exit(0)`. -/
def mainRun (shmOk : Nat → Bool) (forkOk : Nat → Bool) : MainOutcome :=
  match (List.range 5).find? (fun k => ! shmOk k) with
  | some k =>
      { exitCode := -1, semSetRemoved := false, shmCreated := List.range k,
        shmDestroyed := [], forked := [], waited := false }
  | none =>
      match (List.range 5).find? (fun i => ! forkOk i) with
      | some i =>
          { exitCode := -1, semSetRemoved := false, shmCreated := List.range 5,
            shmDestroyed := [], forked := List.range i, waited := false }
      | none =>
          { exitCode := 0, semSetRemoved := true, shmCreated := List.range 5,
            shmDestroyed := List.range 5, forked := List.range 5, waited := true }

/-! ## Counting lemmas -/

lemma gateCount_def (s : SysState) : gateCount s = countW (fun x => inGate (s.pc x)) := rfl

lemma holders_def (s : SysState) (r : Nat) :
    holders s r = countW (fun x =>
      (sem1 x == r && holds1 (s.pc x)) || (sem2 x == r && holds2 (s.pc x))) := rfl

lemma flaggers_def (s : SysState) (r : Nat) :
    flaggers s r = countW (fun x =>
      (sem1 x == r && flagged1 (s.pc x)) || (sem2 x == r && flagged2 (s.pc x))) := rfl

/-- Updating one child's program counter changes a per-child count by
swapping that child's contribution. -/
lemma countW_update_eq (q : Nat → Nat → Bool) (pc : Nat → Nat) (w : Nat) (hw : w < 5) (b : Nat) :
    countW (fun x => q x (Function.update pc w b x)) + (if q w (pc w) then 1 else 0)
      = countW (fun x => q x (pc x)) + (if q w b then 1 else 0) := by
  interval_cases w <;> simp [countW, Function.update_apply] <;> omega

lemma sem1_lt (w : Nat) (hw : w < 5) : sem1 w < 5 := by simpa [sem1] using hw

lemma sem2_lt (w : Nat) (hw : w < 5) : sem2 w < 5 := by
  interval_cases w <;> decide

lemma sem1_ne_sem2 (w : Nat) (hw : w < 5) : sem1 w ≠ sem2 w := by
  interval_cases w <;> decide

lemma pc_bound_update (pc : Nat → Nat) (hpc : ∀ x, x < 5 → pc x ≤ 14) (w b : Nat)
    (hb : b ≤ 14) : ∀ x, x < 5 → Function.update pc w b x ≤ 14 := by
  intro x hx
  by_cases hxw : x = w
  · rw [hxw, Function.update_same]; exact hb
  · rw [Function.update_noteq hxw]; exact hpc x hx

lemma flagged1_imp_holds1 (p : Nat) (h : flagged1 p = true) : holds1 p = true := by
  simp only [flagged1, holds1, decide_eq_true_eq] at *; omega

lemma flagged2_imp_holds2 (p : Nat) (h : flagged2 p = true) : holds2 p = true := by
  simp only [flagged2, holds2, decide_eq_true_eq] at *; omega

/-- A child only has a resource's flag set while it holds that
resource's semaphore. -/
lemma flagsRes_imp_holdsRes (s : SysState) (x r : Nat) (h : flagsRes s x r = true) :
    holdsRes s x r = true := by
  simp only [flagsRes, holdsRes, Bool.or_eq_true, Bool.and_eq_true] at *
  rcases h with ⟨hb, hf⟩ | ⟨hb, hf⟩
  · exact Or.inl ⟨hb, flagged1_imp_holds1 _ hf⟩
  · exact Or.inr ⟨hb, flagged2_imp_holds2 _ hf⟩

/-- If child `w` holds resource `r` and at most one child can hold `r`
(the semaphore equation), then `r`'s flag count is `w`'s own
contribution: no other child can have `r`'s flag set. -/
lemma flaggers_eq_single (s : SysState) (w r : Nat) (hw : w < 5)
    (hres1 : s.sems r + holders s r = 1)
    (hhold : holdsRes s w r = true) :
    flaggers s r = (if flagsRes s w r then 1 else 0) := by
  have key : ∀ x, (if flagsRes s x r then (1:Nat) else 0) ≤ (if holdsRes s x r then 1 else 0) := by
    intro x
    by_cases hx : flagsRes s x r = true
    · simp [hx, flagsRes_imp_holdsRes s x r hx]
    · rw [Bool.not_eq_true] at hx
      simp [hx]
  have hfold1 : holders s r = countW (fun x => holdsRes s x r) := rfl
  have hfold2 : flaggers s r = countW (fun x => flagsRes s x r) := rfl
  rw [hfold1] at hres1
  rw [hfold2]
  have k0 := key 0; have k1 := key 1; have k2 := key 2; have k3 := key 3; have k4 := key 4
  have hh1 : (if holdsRes s w r then (1:Nat) else 0) = 1 := by simp [hhold]
  simp only [countW] at hres1 ⊢
  interval_cases w <;> omega

/-! ## Preservation of the invariant by each operation -/

lemma inv_exec_acq_gate (avail : String → Bool) (s : SysState) (w : Nat) (hw : w < 5)
    (hpc : ∀ x, x < 5 → s.pc x ≤ 14)
    (hgate : s.sems 5 + gateCount s = 4)
    (hres : ∀ r, r < 5 → s.sems r + holders s r = 1)
    (hflag : ∀ r, r < 5 → s.flags r = flaggers s r)
    (hab : ∀ x, x < 5 → s.aborted x = false)
    (hp : s.pc w = 0) :
    Inv (execOp avail w (.acquire 5) s) := by
  simp only [execOp]
  by_cases hz : s.sems 5 = 0
  · simp only [hz, if_true, if_pos]
    exact ⟨hpc, hgate, hres, hflag, hab⟩
  · simp only [hz, if_neg, if_false]
    rw [hp]
    refine ⟨pc_bound_update s.pc hpc w 1 (by norm_num), ?_, ?_, ?_, hab⟩
    · have hg := countW_update_eq (fun _ v => inGate v) s.pc w hw 1
      rw [hp] at hg
      simp only [show inGate 0 = false from rfl, show inGate 1 = true from rfl,
        Bool.false_eq_true, if_false, if_true] at hg
      show Function.update s.sems 5 (s.sems 5 - 1) 5
          + countW (fun x => inGate (Function.update s.pc w 1 x)) = 4
      rw [Function.update_same]
      rw [gateCount_def] at hgate
      omega
    · intro r hr
      have hh := countW_update_eq
        (fun x v => (sem1 x == r && holds1 v) || (sem2 x == r && holds2 v)) s.pc w hw 1
      rw [hp] at hh
      simp only [show holds1 0 = false from rfl, show holds2 0 = false from rfl,
        show holds1 1 = false from rfl, show holds2 1 = false from rfl,
        Bool.and_false, Bool.or_false, Bool.false_or,
        Bool.false_eq_true, if_false] at hh
      have hr1 := hres r hr
      rw [holders_def] at hr1
      show Function.update s.sems 5 (s.sems 5 - 1) r
          + countW (fun x => (sem1 x == r && holds1 (Function.update s.pc w 1 x))
              || (sem2 x == r && holds2 (Function.update s.pc w 1 x))) = 1
      rw [Function.update_noteq (by omega : r ≠ 5)]
      omega
    · intro r hr
      have hf := countW_update_eq
        (fun x v => (sem1 x == r && flagged1 v) || (sem2 x == r && flagged2 v)) s.pc w hw 1
      rw [hp] at hf
      simp only [show flagged1 0 = false from rfl, show flagged2 0 = false from rfl,
        show flagged1 1 = false from rfl, show flagged2 1 = false from rfl,
        Bool.and_false, Bool.or_false, Bool.false_or,
        Bool.false_eq_true, if_false] at hf
      have hf1 := hflag r hr
      rw [flaggers_def] at hf1
      show s.flags r
          = countW (fun x => (sem1 x == r && flagged1 (Function.update s.pc w 1 x))
              || (sem2 x == r && flagged2 (Function.update s.pc w 1 x)))
      omega

lemma inv_exec_acq1 (avail : String → Bool) (s : SysState) (w : Nat) (hw : w < 5)
    (hpc : ∀ x, x < 5 → s.pc x ≤ 14)
    (hgate : s.sems 5 + gateCount s = 4)
    (hres : ∀ r, r < 5 → s.sems r + holders s r = 1)
    (hflag : ∀ r, r < 5 → s.flags r = flaggers s r)
    (hab : ∀ x, x < 5 → s.aborted x = false)
    (hp : s.pc w = 1) :
    Inv (execOp avail w (.acquire (sem1 w)) s) := by
  simp only [execOp]
  by_cases hz : s.sems (sem1 w) = 0
  · simp only [hz, if_true, if_pos]
    exact ⟨hpc, hgate, hres, hflag, hab⟩
  · simp only [hz, if_neg, if_false]
    rw [hp]
    refine ⟨pc_bound_update s.pc hpc w 2 (by norm_num), ?_, ?_, ?_, hab⟩
    · have hg := countW_update_eq (fun _ v => inGate v) s.pc w hw 2
      rw [hp] at hg
      simp only [show inGate 1 = true from rfl, show inGate 2 = true from rfl, if_true] at hg
      have h5 : (5:Nat) ≠ sem1 w := by have := sem1_lt w hw; omega
      show Function.update s.sems (sem1 w) (s.sems (sem1 w) - 1) 5
          + countW (fun x => inGate (Function.update s.pc w 2 x)) = 4
      rw [Function.update_noteq h5]
      rw [gateCount_def] at hgate
      omega
    · intro r hr
      have hh := countW_update_eq
        (fun x v => (sem1 x == r && holds1 v) || (sem2 x == r && holds2 v)) s.pc w hw 2
      rw [hp] at hh
      simp only [show holds1 1 = false from rfl, show holds2 1 = false from rfl,
        show holds1 2 = true from rfl, show holds2 2 = false from rfl,
        Bool.and_false, Bool.and_true, Bool.false_or, Bool.or_false,
        Bool.false_eq_true, if_false] at hh
      have hr1 := hres r hr
      rw [holders_def] at hr1
      show Function.update s.sems (sem1 w) (s.sems (sem1 w) - 1) r
          + countW (fun x => (sem1 x == r && holds1 (Function.update s.pc w 2 x))
              || (sem2 x == r && holds2 (Function.update s.pc w 2 x))) = 1
      by_cases hsr : sem1 w = r
      · rw [hsr, Function.update_same]
        rw [hsr] at hh
        simp only [beq_self_eq_true, if_true] at hh
        rw [hsr] at hz
        omega
      · rw [Function.update_noteq (Ne.symm hsr)]
        have hne : (sem1 w == r) = false := by simp [hsr]
        rw [hne] at hh
        simp only [Bool.false_eq_true, if_false] at hh
        omega
    · intro r hr
      have hf := countW_update_eq
        (fun x v => (sem1 x == r && flagged1 v) || (sem2 x == r && flagged2 v)) s.pc w hw 2
      rw [hp] at hf
      simp only [show flagged1 1 = false from rfl, show flagged2 1 = false from rfl,
        show flagged1 2 = false from rfl, show flagged2 2 = false from rfl,
        Bool.and_false, Bool.false_or, Bool.or_false,
        Bool.false_eq_true, if_false] at hf
      have hf1 := hflag r hr
      rw [flaggers_def] at hf1
      show s.flags r
          = countW (fun x => (sem1 x == r && flagged1 (Function.update s.pc w 2 x))
              || (sem2 x == r && flagged2 (Function.update s.pc w 2 x)))
      omega

lemma inv_exec_acq2 (avail : String → Bool) (s : SysState) (w : Nat) (hw : w < 5)
    (hpc : ∀ x, x < 5 → s.pc x ≤ 14)
    (hgate : s.sems 5 + gateCount s = 4)
    (hres : ∀ r, r < 5 → s.sems r + holders s r = 1)
    (hflag : ∀ r, r < 5 → s.flags r = flaggers s r)
    (hab : ∀ x, x < 5 → s.aborted x = false)
    (hp : s.pc w = 2) :
    Inv (execOp avail w (.acquire (sem2 w)) s) := by
  simp only [execOp]
  by_cases hz : s.sems (sem2 w) = 0
  · simp only [hz, if_true, if_pos]
    exact ⟨hpc, hgate, hres, hflag, hab⟩
  · simp only [hz, if_neg, if_false]
    rw [hp]
    refine ⟨pc_bound_update s.pc hpc w 3 (by norm_num), ?_, ?_, ?_, hab⟩
    · have hg := countW_update_eq (fun _ v => inGate v) s.pc w hw 3
      rw [hp] at hg
      simp only [show inGate 2 = true from rfl, show inGate 3 = true from rfl, if_true] at hg
      have h5 : (5:Nat) ≠ sem2 w := by have := sem2_lt w hw; omega
      show Function.update s.sems (sem2 w) (s.sems (sem2 w) - 1) 5
          + countW (fun x => inGate (Function.update s.pc w 3 x)) = 4
      rw [Function.update_noteq h5]
      rw [gateCount_def] at hgate
      omega
    · intro r hr
      have hh := countW_update_eq
        (fun x v => (sem1 x == r && holds1 v) || (sem2 x == r && holds2 v)) s.pc w hw 3
      rw [hp] at hh
      simp only [show holds1 2 = true from rfl, show holds2 2 = false from rfl,
        show holds1 3 = true from rfl, show holds2 3 = true from rfl,
        Bool.and_false, Bool.and_true, Bool.false_or, Bool.or_false] at hh
      have hr1 := hres r hr
      rw [holders_def] at hr1
      show Function.update s.sems (sem2 w) (s.sems (sem2 w) - 1) r
          + countW (fun x => (sem1 x == r && holds1 (Function.update s.pc w 3 x))
              || (sem2 x == r && holds2 (Function.update s.pc w 3 x))) = 1
      by_cases hsr : sem2 w = r
      · have hns := sem1_ne_sem2 w hw
        rw [hsr] at hns
        have hne : (sem1 w == r) = false := by simp [hns]
        rw [hsr] at hh hz
        rw [hsr, Function.update_same]
        simp only [hne, beq_self_eq_true, Bool.false_or, if_true,
          Bool.false_eq_true, if_false] at hh
        omega
      · have h2 : (sem2 w == r) = false := by simp [hsr]
        rw [Function.update_noteq (Ne.symm hsr)]
        rw [h2] at hh
        simp only [Bool.or_false, Bool.false_eq_true, if_false] at hh
        omega
    · intro r hr
      have hf := countW_update_eq
        (fun x v => (sem1 x == r && flagged1 v) || (sem2 x == r && flagged2 v)) s.pc w hw 3
      rw [hp] at hf
      simp only [show flagged1 2 = false from rfl, show flagged2 2 = false from rfl,
        show flagged1 3 = false from rfl, show flagged2 3 = false from rfl,
        Bool.and_false, Bool.false_or, Bool.or_false,
        Bool.false_eq_true, if_false] at hf
      have hf1 := hflag r hr
      rw [flaggers_def] at hf1
      show s.flags r
          = countW (fun x => (sem1 x == r && flagged1 (Function.update s.pc w 3 x))
              || (sem2 x == r && flagged2 (Function.update s.pc w 3 x)))
      omega

lemma inv_exec_check1 (avail : String → Bool) (s : SysState) (w : Nat) (hw : w < 5)
    (hpc : ∀ x, x < 5 → s.pc x ≤ 14)
    (hgate : s.sems 5 + gateCount s = 4)
    (hres : ∀ r, r < 5 → s.sems r + holders s r = 1)
    (hflag : ∀ r, r < 5 → s.flags r = flaggers s r)
    (hab : ∀ x, x < 5 → s.aborted x = false)
    (hp : s.pc w = 3) :
    Inv (execOp avail w (.checkSetFlag (sem1 w)) s) := by
  have hhold : holdsRes s w (sem1 w) = true := by simp [holdsRes, hp, holds1]
  have hfr : flagsRes s w (sem1 w) = false := by simp [flagsRes, hp, flagged1, flagged2]
  have hz : s.flags (sem1 w) = 0 := by
    rw [hflag (sem1 w) (sem1_lt w hw),
      flaggers_eq_single s w (sem1 w) hw (hres (sem1 w) (sem1_lt w hw)) hhold, hfr]
    simp
  simp only [execOp]
  rw [if_pos hz, hp]
  refine ⟨pc_bound_update s.pc hpc w 4 (by norm_num), ?_, ?_, ?_, hab⟩
  · have hg := countW_update_eq (fun _ v => inGate v) s.pc w hw 4
    rw [hp] at hg
    simp only [show inGate 3 = true from rfl, show inGate 4 = true from rfl, if_true] at hg
    show s.sems 5 + countW (fun x => inGate (Function.update s.pc w 4 x)) = 4
    rw [gateCount_def] at hgate
    omega
  · intro r hr
    have hh := countW_update_eq
      (fun x v => (sem1 x == r && holds1 v) || (sem2 x == r && holds2 v)) s.pc w hw 4
    rw [hp] at hh
    simp only [show holds1 3 = true from rfl, show holds2 3 = true from rfl,
      show holds1 4 = true from rfl, show holds2 4 = true from rfl, Bool.and_true] at hh
    have hr1 := hres r hr
    rw [holders_def] at hr1
    show s.sems r
        + countW (fun x => (sem1 x == r && holds1 (Function.update s.pc w 4 x))
            || (sem2 x == r && holds2 (Function.update s.pc w 4 x))) = 1
    omega
  · intro r hr
    have hf := countW_update_eq
      (fun x v => (sem1 x == r && flagged1 v) || (sem2 x == r && flagged2 v)) s.pc w hw 4
    rw [hp] at hf
    simp only [show flagged1 3 = false from rfl, show flagged2 3 = false from rfl,
      show flagged1 4 = true from rfl, show flagged2 4 = false from rfl,
      Bool.and_false, Bool.and_true, Bool.false_or, Bool.or_false,
      Bool.false_eq_true, if_false] at hf
    have hf1 := hflag r hr
    rw [flaggers_def] at hf1
    show Function.update s.flags (sem1 w) 1 r
        = countW (fun x => (sem1 x == r && flagged1 (Function.update s.pc w 4 x))
            || (sem2 x == r && flagged2 (Function.update s.pc w 4 x)))
    by_cases hsr : sem1 w = r
    · rw [hsr] at hf hz
      rw [hsr, Function.update_same]
      simp only [beq_self_eq_true, if_true] at hf
      omega
    · rw [Function.update_noteq (Ne.symm hsr)]
      have hne : (sem1 w == r) = false := by simp [hsr]
      rw [hne] at hf
      simp only [Bool.false_eq_true, if_false] at hf
      omega

lemma inv_exec_check2 (avail : String → Bool) (s : SysState) (w : Nat) (hw : w < 5)
    (hpc : ∀ x, x < 5 → s.pc x ≤ 14)
    (hgate : s.sems 5 + gateCount s = 4)
    (hres : ∀ r, r < 5 → s.sems r + holders s r = 1)
    (hflag : ∀ r, r < 5 → s.flags r = flaggers s r)
    (hab : ∀ x, x < 5 → s.aborted x = false)
    (hp : s.pc w = 4) :
    Inv (execOp avail w (.checkSetFlag (sem2 w)) s) := by
  have hns := sem1_ne_sem2 w hw
  have hhold : holdsRes s w (sem2 w) = true := by simp [holdsRes, hp, holds2]
  have hne12 : (sem1 w == sem2 w) = false := by
    rw [beq_eq_false_iff_ne]; exact hns
  have hfr : flagsRes s w (sem2 w) = false := by
    simp [flagsRes, hp, flagged1, flagged2, hne12]
  have hz : s.flags (sem2 w) = 0 := by
    rw [hflag (sem2 w) (sem2_lt w hw),
      flaggers_eq_single s w (sem2 w) hw (hres (sem2 w) (sem2_lt w hw)) hhold, hfr]
    simp
  simp only [execOp]
  rw [if_pos hz, hp]
  refine ⟨pc_bound_update s.pc hpc w 5 (by norm_num), ?_, ?_, ?_, hab⟩
  · have hg := countW_update_eq (fun _ v => inGate v) s.pc w hw 5
    rw [hp] at hg
    simp only [show inGate 4 = true from rfl, show inGate 5 = true from rfl, if_true] at hg
    show s.sems 5 + countW (fun x => inGate (Function.update s.pc w 5 x)) = 4
    rw [gateCount_def] at hgate
    omega
  · intro r hr
    have hh := countW_update_eq
      (fun x v => (sem1 x == r && holds1 v) || (sem2 x == r && holds2 v)) s.pc w hw 5
    rw [hp] at hh
    simp only [show holds1 4 = true from rfl, show holds2 4 = true from rfl,
      show holds1 5 = true from rfl, show holds2 5 = true from rfl, Bool.and_true] at hh
    have hr1 := hres r hr
    rw [holders_def] at hr1
    show s.sems r
        + countW (fun x => (sem1 x == r && holds1 (Function.update s.pc w 5 x))
            || (sem2 x == r && holds2 (Function.update s.pc w 5 x))) = 1
    omega
  · intro r hr
    have hf := countW_update_eq
      (fun x v => (sem1 x == r && flagged1 v) || (sem2 x == r && flagged2 v)) s.pc w hw 5
    rw [hp] at hf
    simp only [show flagged1 4 = true from rfl, show flagged2 4 = false from rfl,
      show flagged1 5 = true from rfl, show flagged2 5 = true from rfl,
      Bool.and_false, Bool.and_true, Bool.or_false] at hf
    have hf1 := hflag r hr
    rw [flaggers_def] at hf1
    show Function.update s.flags (sem2 w) 1 r
        = countW (fun x => (sem1 x == r && flagged1 (Function.update s.pc w 5 x))
            || (sem2 x == r && flagged2 (Function.update s.pc w 5 x)))
    by_cases hsr : sem2 w = r
    · have hns' : sem1 w ≠ r := by rw [hsr] at hns; exact hns
      have hne : (sem1 w == r) = false := by simp [hns']
      rw [hsr] at hz hf
      rw [hsr, Function.update_same]
      rw [hne] at hf
      simp only [beq_self_eq_true, Bool.false_or, if_true,
        Bool.false_eq_true, if_false] at hf
      omega
    · have h2 : (sem2 w == r) = false := by simp [hsr]
      rw [Function.update_noteq (Ne.symm hsr)]
      rw [h2] at hf
      simp only [Bool.or_false, Bool.false_eq_true, if_false] at hf
      omega

lemma inv_exec_clear1 (avail : String → Bool) (s : SysState) (w : Nat) (hw : w < 5)
    (hpc : ∀ x, x < 5 → s.pc x ≤ 14)
    (hgate : s.sems 5 + gateCount s = 4)
    (hres : ∀ r, r < 5 → s.sems r + holders s r = 1)
    (hflag : ∀ r, r < 5 → s.flags r = flaggers s r)
    (hab : ∀ x, x < 5 → s.aborted x = false)
    (hp : s.pc w = 9) :
    Inv (execOp avail w (.clearFlag (sem1 w)) s) := by
  have hns := sem1_ne_sem2 w hw
  have hhold : holdsRes s w (sem1 w) = true := by simp [holdsRes, hp, holds1]
  have hfr : flagsRes s w (sem1 w) = true := by simp [flagsRes, hp, flagged1]
  have hone : s.flags (sem1 w) = 1 := by
    rw [hflag (sem1 w) (sem1_lt w hw),
      flaggers_eq_single s w (sem1 w) hw (hres (sem1 w) (sem1_lt w hw)) hhold, hfr]
    simp
  simp only [execOp]
  rw [hp]
  refine ⟨pc_bound_update s.pc hpc w 10 (by norm_num), ?_, ?_, ?_, hab⟩
  · have hg := countW_update_eq (fun _ v => inGate v) s.pc w hw 10
    rw [hp] at hg
    simp only [show inGate 9 = true from rfl, show inGate 10 = true from rfl, if_true] at hg
    show s.sems 5 + countW (fun x => inGate (Function.update s.pc w 10 x)) = 4
    rw [gateCount_def] at hgate
    omega
  · intro r hr
    have hh := countW_update_eq
      (fun x v => (sem1 x == r && holds1 v) || (sem2 x == r && holds2 v)) s.pc w hw 10
    rw [hp] at hh
    simp only [show holds1 9 = true from rfl, show holds2 9 = true from rfl,
      show holds1 10 = true from rfl, show holds2 10 = true from rfl, Bool.and_true] at hh
    have hr1 := hres r hr
    rw [holders_def] at hr1
    show s.sems r
        + countW (fun x => (sem1 x == r && holds1 (Function.update s.pc w 10 x))
            || (sem2 x == r && holds2 (Function.update s.pc w 10 x))) = 1
    omega
  · intro r hr
    have hf := countW_update_eq
      (fun x v => (sem1 x == r && flagged1 v) || (sem2 x == r && flagged2 v)) s.pc w hw 10
    rw [hp] at hf
    simp only [show flagged1 9 = true from rfl, show flagged2 9 = true from rfl,
      show flagged1 10 = false from rfl, show flagged2 10 = true from rfl,
      Bool.and_false, Bool.and_true, Bool.false_or] at hf
    have hf1 := hflag r hr
    rw [flaggers_def] at hf1
    show Function.update s.flags (sem1 w) 0 r
        = countW (fun x => (sem1 x == r && flagged1 (Function.update s.pc w 10 x))
            || (sem2 x == r && flagged2 (Function.update s.pc w 10 x)))
    by_cases hsr : sem1 w = r
    · have hns' : sem2 w ≠ r := by rw [hsr] at hns; exact fun h => hns h.symm
      have hne2 : (sem2 w == r) = false := by simp [hns']
      rw [hsr] at hone hf
      rw [hsr, Function.update_same]
      rw [hne2] at hf
      simp only [beq_self_eq_true, Bool.true_or, if_true,
        Bool.false_eq_true, if_false] at hf
      omega
    · have hne : (sem1 w == r) = false := by simp [hsr]
      rw [Function.update_noteq (Ne.symm hsr)]
      rw [hne] at hf
      simp only [Bool.false_or] at hf
      omega

lemma inv_exec_clear2 (avail : String → Bool) (s : SysState) (w : Nat) (hw : w < 5)
    (hpc : ∀ x, x < 5 → s.pc x ≤ 14)
    (hgate : s.sems 5 + gateCount s = 4)
    (hres : ∀ r, r < 5 → s.sems r + holders s r = 1)
    (hflag : ∀ r, r < 5 → s.flags r = flaggers s r)
    (hab : ∀ x, x < 5 → s.aborted x = false)
    (hp : s.pc w = 11) :
    Inv (execOp avail w (.clearFlag (sem2 w)) s) := by
  have hhold : holdsRes s w (sem2 w) = true := by simp [holdsRes, hp, holds2]
  have hfr : flagsRes s w (sem2 w) = true := by simp [flagsRes, hp, flagged1, flagged2]
  have hone : s.flags (sem2 w) = 1 := by
    rw [hflag (sem2 w) (sem2_lt w hw),
      flaggers_eq_single s w (sem2 w) hw (hres (sem2 w) (sem2_lt w hw)) hhold, hfr]
    simp
  simp only [execOp]
  rw [hp]
  refine ⟨pc_bound_update s.pc hpc w 12 (by norm_num), ?_, ?_, ?_, hab⟩
  · have hg := countW_update_eq (fun _ v => inGate v) s.pc w hw 12
    rw [hp] at hg
    simp only [show inGate 11 = true from rfl, show inGate 12 = true from rfl, if_true] at hg
    show s.sems 5 + countW (fun x => inGate (Function.update s.pc w 12 x)) = 4
    rw [gateCount_def] at hgate
    omega
  · intro r hr
    have hh := countW_update_eq
      (fun x v => (sem1 x == r && holds1 v) || (sem2 x == r && holds2 v)) s.pc w hw 12
    rw [hp] at hh
    simp only [show holds1 11 = false from rfl, show holds2 11 = true from rfl,
      show holds1 12 = false from rfl, show holds2 12 = true from rfl,
      Bool.and_false, Bool.and_true, Bool.false_or] at hh
    have hr1 := hres r hr
    rw [holders_def] at hr1
    show s.sems r
        + countW (fun x => (sem1 x == r && holds1 (Function.update s.pc w 12 x))
            || (sem2 x == r && holds2 (Function.update s.pc w 12 x))) = 1
    omega
  · intro r hr
    have hf := countW_update_eq
      (fun x v => (sem1 x == r && flagged1 v) || (sem2 x == r && flagged2 v)) s.pc w hw 12
    rw [hp] at hf
    simp only [show flagged1 11 = false from rfl, show flagged2 11 = true from rfl,
      show flagged1 12 = false from rfl, show flagged2 12 = false from rfl,
      Bool.and_false, Bool.and_true, Bool.false_or, Bool.or_false,
      Bool.false_eq_true, if_false] at hf
    have hf1 := hflag r hr
    rw [flaggers_def] at hf1
    show Function.update s.flags (sem2 w) 0 r
        = countW (fun x => (sem1 x == r && flagged1 (Function.update s.pc w 12 x))
            || (sem2 x == r && flagged2 (Function.update s.pc w 12 x)))
    by_cases hsr : sem2 w = r
    · rw [hsr] at hone hf
      rw [hsr, Function.update_same]
      simp only [beq_self_eq_true, if_true] at hf
      omega
    · have hne2 : (sem2 w == r) = false := by simp [hsr]
      rw [Function.update_noteq (Ne.symm hsr)]
      rw [hne2] at hf
      simp only [Bool.false_eq_true, if_false] at hf
      omega

lemma inv_exec_rel1 (avail : String → Bool) (s : SysState) (w : Nat) (hw : w < 5)
    (hpc : ∀ x, x < 5 → s.pc x ≤ 14)
    (hgate : s.sems 5 + gateCount s = 4)
    (hres : ∀ r, r < 5 → s.sems r + holders s r = 1)
    (hflag : ∀ r, r < 5 → s.flags r = flaggers s r)
    (hab : ∀ x, x < 5 → s.aborted x = false)
    (hp : s.pc w = 10) :
    Inv (execOp avail w (.release (sem1 w)) s) := by
  have hns := sem1_ne_sem2 w hw
  simp only [execOp]
  rw [hp]
  refine ⟨pc_bound_update s.pc hpc w 11 (by norm_num), ?_, ?_, ?_, hab⟩
  · have hg := countW_update_eq (fun _ v => inGate v) s.pc w hw 11
    rw [hp] at hg
    simp only [show inGate 10 = true from rfl, show inGate 11 = true from rfl, if_true] at hg
    have h5 : (5:Nat) ≠ sem1 w := by have := sem1_lt w hw; omega
    show Function.update s.sems (sem1 w) (s.sems (sem1 w) + 1) 5
        + countW (fun x => inGate (Function.update s.pc w 11 x)) = 4
    rw [Function.update_noteq h5]
    rw [gateCount_def] at hgate
    omega
  · intro r hr
    have hh := countW_update_eq
      (fun x v => (sem1 x == r && holds1 v) || (sem2 x == r && holds2 v)) s.pc w hw 11
    rw [hp] at hh
    simp only [show holds1 10 = true from rfl, show holds2 10 = true from rfl,
      show holds1 11 = false from rfl, show holds2 11 = true from rfl,
      Bool.and_false, Bool.and_true, Bool.false_or] at hh
    have hr1 := hres r hr
    rw [holders_def] at hr1
    show Function.update s.sems (sem1 w) (s.sems (sem1 w) + 1) r
        + countW (fun x => (sem1 x == r && holds1 (Function.update s.pc w 11 x))
            || (sem2 x == r && holds2 (Function.update s.pc w 11 x))) = 1
    by_cases hsr : sem1 w = r
    · have hns' : sem2 w ≠ r := by rw [hsr] at hns; exact fun h => hns h.symm
      have hne2 : (sem2 w == r) = false := by simp [hns']
      rw [hsr] at hh
      rw [hsr, Function.update_same]
      rw [hne2] at hh
      simp only [beq_self_eq_true, Bool.true_or, if_true,
        Bool.false_eq_true, if_false] at hh
      omega
    · have hne : (sem1 w == r) = false := by simp [hsr]
      rw [Function.update_noteq (Ne.symm hsr)]
      rw [hne] at hh
      simp only [Bool.false_or] at hh
      omega
  · intro r hr
    have hf := countW_update_eq
      (fun x v => (sem1 x == r && flagged1 v) || (sem2 x == r && flagged2 v)) s.pc w hw 11
    rw [hp] at hf
    simp only [show flagged1 10 = false from rfl, show flagged2 10 = true from rfl,
      show flagged1 11 = false from rfl, show flagged2 11 = true from rfl,
      Bool.and_false, Bool.and_true, Bool.false_or] at hf
    have hf1 := hflag r hr
    rw [flaggers_def] at hf1
    show s.flags r
        = countW (fun x => (sem1 x == r && flagged1 (Function.update s.pc w 11 x))
            || (sem2 x == r && flagged2 (Function.update s.pc w 11 x)))
    omega

lemma inv_exec_rel2 (avail : String → Bool) (s : SysState) (w : Nat) (hw : w < 5)
    (hpc : ∀ x, x < 5 → s.pc x ≤ 14)
    (hgate : s.sems 5 + gateCount s = 4)
    (hres : ∀ r, r < 5 → s.sems r + holders s r = 1)
    (hflag : ∀ r, r < 5 → s.flags r = flaggers s r)
    (hab : ∀ x, x < 5 → s.aborted x = false)
    (hp : s.pc w = 12) :
    Inv (execOp avail w (.release (sem2 w)) s) := by
  simp only [execOp]
  rw [hp]
  refine ⟨pc_bound_update s.pc hpc w 13 (by norm_num), ?_, ?_, ?_, hab⟩
  · have hg := countW_update_eq (fun _ v => inGate v) s.pc w hw 13
    rw [hp] at hg
    simp only [show inGate 12 = true from rfl, show inGate 13 = true from rfl, if_true] at hg
    have h5 : (5:Nat) ≠ sem2 w := by have := sem2_lt w hw; omega
    show Function.update s.sems (sem2 w) (s.sems (sem2 w) + 1) 5
        + countW (fun x => inGate (Function.update s.pc w 13 x)) = 4
    rw [Function.update_noteq h5]
    rw [gateCount_def] at hgate
    omega
  · intro r hr
    have hh := countW_update_eq
      (fun x v => (sem1 x == r && holds1 v) || (sem2 x == r && holds2 v)) s.pc w hw 13
    rw [hp] at hh
    simp only [show holds1 12 = false from rfl, show holds2 12 = true from rfl,
      show holds1 13 = false from rfl, show holds2 13 = false from rfl,
      Bool.and_false, Bool.and_true, Bool.false_or, Bool.or_false,
      Bool.false_eq_true, if_false] at hh
    have hr1 := hres r hr
    rw [holders_def] at hr1
    show Function.update s.sems (sem2 w) (s.sems (sem2 w) + 1) r
        + countW (fun x => (sem1 x == r && holds1 (Function.update s.pc w 13 x))
            || (sem2 x == r && holds2 (Function.update s.pc w 13 x))) = 1
    by_cases hsr : sem2 w = r
    · rw [hsr] at hh
      rw [hsr, Function.update_same]
      simp only [beq_self_eq_true, if_true] at hh
      omega
    · have hne2 : (sem2 w == r) = false := by simp [hsr]
      rw [Function.update_noteq (Ne.symm hsr)]
      rw [hne2] at hh
      simp only [Bool.false_eq_true, if_false] at hh
      omega
  · intro r hr
    have hf := countW_update_eq
      (fun x v => (sem1 x == r && flagged1 v) || (sem2 x == r && flagged2 v)) s.pc w hw 13
    rw [hp] at hf
    simp only [show flagged1 12 = false from rfl, show flagged2 12 = false from rfl,
      show flagged1 13 = false from rfl, show flagged2 13 = false from rfl,
      Bool.and_false, Bool.or_false, Bool.false_or,
      Bool.false_eq_true, if_false] at hf
    have hf1 := hflag r hr
    rw [flaggers_def] at hf1
    show s.flags r
        = countW (fun x => (sem1 x == r && flagged1 (Function.update s.pc w 13 x))
            || (sem2 x == r && flagged2 (Function.update s.pc w 13 x)))
    omega

lemma inv_exec_rel_gate (avail : String → Bool) (s : SysState) (w : Nat) (hw : w < 5)
    (hpc : ∀ x, x < 5 → s.pc x ≤ 14)
    (hgate : s.sems 5 + gateCount s = 4)
    (hres : ∀ r, r < 5 → s.sems r + holders s r = 1)
    (hflag : ∀ r, r < 5 → s.flags r = flaggers s r)
    (hab : ∀ x, x < 5 → s.aborted x = false)
    (hp : s.pc w = 13) :
    Inv (execOp avail w (.release 5) s) := by
  simp only [execOp]
  rw [hp]
  refine ⟨pc_bound_update s.pc hpc w 14 (by norm_num), ?_, ?_, ?_, hab⟩
  · have hg := countW_update_eq (fun _ v => inGate v) s.pc w hw 14
    rw [hp] at hg
    simp only [show inGate 13 = true from rfl, show inGate 14 = false from rfl,
      if_true, Bool.false_eq_true, if_false] at hg
    show Function.update s.sems 5 (s.sems 5 + 1) 5
        + countW (fun x => inGate (Function.update s.pc w 14 x)) = 4
    rw [Function.update_same]
    rw [gateCount_def] at hgate
    omega
  · intro r hr
    have hh := countW_update_eq
      (fun x v => (sem1 x == r && holds1 v) || (sem2 x == r && holds2 v)) s.pc w hw 14
    rw [hp] at hh
    simp only [show holds1 13 = false from rfl, show holds2 13 = false from rfl,
      show holds1 14 = false from rfl, show holds2 14 = false from rfl,
      Bool.and_false, Bool.or_false, Bool.false_or,
      Bool.false_eq_true, if_false] at hh
    have hr1 := hres r hr
    rw [holders_def] at hr1
    show Function.update s.sems 5 (s.sems 5 + 1) r
        + countW (fun x => (sem1 x == r && holds1 (Function.update s.pc w 14 x))
            || (sem2 x == r && holds2 (Function.update s.pc w 14 x))) = 1
    rw [Function.update_noteq (by omega : r ≠ 5)]
    omega
  · intro r hr
    have hf := countW_update_eq
      (fun x v => (sem1 x == r && flagged1 v) || (sem2 x == r && flagged2 v)) s.pc w hw 14
    rw [hp] at hf
    simp only [show flagged1 13 = false from rfl, show flagged2 13 = false from rfl,
      show flagged1 14 = false from rfl, show flagged2 14 = false from rfl,
      Bool.and_false, Bool.or_false, Bool.false_or,
      Bool.false_eq_true, if_false] at hf
    have hf1 := hflag r hr
    rw [flaggers_def] at hf1
    show s.flags r
        = countW (fun x => (sem1 x == r && flagged1 (Function.update s.pc w 14 x))
            || (sem2 x == r && flagged2 (Function.update s.pc w 14 x)))
    omega

lemma inv_exec_append (avail : String → Bool) (s : SysState) (w : Nat) (f : String)
    (u : Bool) (hw : w < 5)
    (hpc : ∀ x, x < 5 → s.pc x ≤ 14)
    (hgate : s.sems 5 + gateCount s = 4)
    (hres : ∀ r, r < 5 → s.sems r + holders s r = 1)
    (hflag : ∀ r, r < 5 → s.flags r = flaggers s r)
    (hab : ∀ x, x < 5 → s.aborted x = false)
    (hp5 : 5 ≤ s.pc w) (hp8 : s.pc w ≤ 8) :
    Inv (execOp avail w (.append f u) s) := by
  have g1 : inGate (s.pc w) = true := by simp [inGate]; omega
  have g2 : inGate (s.pc w + 1) = true := by simp [inGate]; omega
  have a1 : holds1 (s.pc w) = true := by simp [holds1]; omega
  have a2 : holds1 (s.pc w + 1) = true := by simp [holds1]; omega
  have b1 : holds2 (s.pc w) = true := by simp [holds2]; omega
  have b2 : holds2 (s.pc w + 1) = true := by simp [holds2]; omega
  have c1 : flagged1 (s.pc w) = true := by simp [flagged1]; omega
  have c2 : flagged1 (s.pc w + 1) = true := by simp [flagged1]; omega
  have d1 : flagged2 (s.pc w) = true := by simp [flagged2]; omega
  have d2 : flagged2 (s.pc w + 1) = true := by simp [flagged2]; omega
  simp only [execOp]
  refine ⟨pc_bound_update s.pc hpc w (s.pc w + 1) (by omega), ?_, ?_, ?_, hab⟩
  · have hg := countW_update_eq (fun _ v => inGate v) s.pc w hw (s.pc w + 1)
    rw [g1, g2] at hg
    simp only [if_true] at hg
    show s.sems 5 + countW (fun x => inGate (Function.update s.pc w (s.pc w + 1) x)) = 4
    rw [gateCount_def] at hgate
    omega
  · intro r hr
    have hh := countW_update_eq
      (fun x v => (sem1 x == r && holds1 v) || (sem2 x == r && holds2 v)) s.pc w hw (s.pc w + 1)
    rw [a1, a2, b1, b2] at hh
    simp only [Bool.and_true] at hh
    have hr1 := hres r hr
    rw [holders_def] at hr1
    show s.sems r
        + countW (fun x => (sem1 x == r && holds1 (Function.update s.pc w (s.pc w + 1) x))
            || (sem2 x == r && holds2 (Function.update s.pc w (s.pc w + 1) x))) = 1
    omega
  · intro r hr
    have hf := countW_update_eq
      (fun x v => (sem1 x == r && flagged1 v) || (sem2 x == r && flagged2 v)) s.pc w hw (s.pc w + 1)
    rw [c1, c2, d1, d2] at hf
    simp only [Bool.and_true] at hf
    have hf1 := hflag r hr
    rw [flaggers_def] at hf1
    show s.flags r
        = countW (fun x => (sem1 x == r && flagged1 (Function.update s.pc w (s.pc w + 1) x))
            || (sem2 x == r && flagged2 (Function.update s.pc w (s.pc w + 1) x)))
    omega

/-- Every scheduler step preserves the invariant. -/
lemma inv_wstep (avail : String → Bool) (s : SysState) (w : Nat) (hI : Inv s) :
    Inv (wstep avail s w) := by
  obtain ⟨hpc, hgate, hres, hflag, hab⟩ := hI
  unfold wstep
  by_cases hw : w < PROC_COUNT
  · simp only [hw, if_true]
    have hw5 : w < 5 := hw
    have hple : s.pc w ≤ 14 := hpc w hw5
    obtain ⟨p, hp⟩ : ∃ p, s.pc w = p := ⟨_, rfl⟩
    rw [hp]
    rw [hp] at hple
    interval_cases p
    · show Inv (execOp avail w (.acquire 5) s)
      exact inv_exec_acq_gate avail s w hw5 hpc hgate hres hflag hab hp
    · show Inv (execOp avail w (.acquire (sem1 w)) s)
      exact inv_exec_acq1 avail s w hw5 hpc hgate hres hflag hab hp
    · show Inv (execOp avail w (.acquire (sem2 w)) s)
      exact inv_exec_acq2 avail s w hw5 hpc hgate hres hflag hab hp
    · show Inv (execOp avail w (.checkSetFlag (sem1 w)) s)
      exact inv_exec_check1 avail s w hw5 hpc hgate hres hflag hab hp
    · show Inv (execOp avail w (.checkSetFlag (sem2 w)) s)
      exact inv_exec_check2 avail s w hw5 hpc hgate hres hflag hab hp
    · show Inv (execOp avail w (.append (db1filename w) true) s)
      exact inv_exec_append avail s w _ true hw5 hpc hgate hres hflag hab
        (by omega) (by omega)
    · show Inv (execOp avail w (.append (db2filename w) true) s)
      exact inv_exec_append avail s w _ true hw5 hpc hgate hres hflag hab
        (by omega) (by omega)
    · show Inv (execOp avail w (.append (db1filename w) false) s)
      exact inv_exec_append avail s w _ false hw5 hpc hgate hres hflag hab
        (by omega) (by omega)
    · show Inv (execOp avail w (.append (db2filename w) false) s)
      exact inv_exec_append avail s w _ false hw5 hpc hgate hres hflag hab
        (by omega) (by omega)
    · show Inv (execOp avail w (.clearFlag (sem1 w)) s)
      exact inv_exec_clear1 avail s w hw5 hpc hgate hres hflag hab hp
    · show Inv (execOp avail w (.release (sem1 w)) s)
      exact inv_exec_rel1 avail s w hw5 hpc hgate hres hflag hab hp
    · show Inv (execOp avail w (.clearFlag (sem2 w)) s)
      exact inv_exec_clear2 avail s w hw5 hpc hgate hres hflag hab hp
    · show Inv (execOp avail w (.release (sem2 w)) s)
      exact inv_exec_rel2 avail s w hw5 hpc hgate hres hflag hab hp
    · show Inv (execOp avail w (.release 5) s)
      exact inv_exec_rel_gate avail s w hw5 hpc hgate hres hflag hab hp
    · show Inv s
      exact ⟨hpc, hgate, hres, hflag, hab⟩
  · simp only [hw, if_false]
    exact ⟨hpc, hgate, hres, hflag, hab⟩

/-- The initial state satisfies the invariant. -/
lemma inv_init : Inv initState :=
  ⟨fun _ _ => Nat.zero_le 14, by decide,
   fun r hr => by interval_cases r <;> decide,
   fun r hr => by interval_cases r <;> decide,
   fun _ _ => rfl⟩

lemma inv_foldl (avail : String → Bool) :
    ∀ (sch : List Nat) (s : SysState), Inv s → Inv (sch.foldl (wstep avail) s)
  | [], _, h => h
  | w :: t, s, h => inv_foldl avail t _ (inv_wstep avail s w h)

/-- Every reachable state satisfies the invariant. -/
theorem inv_reachable (avail : String → Bool) (s : SysState)
    (h : Reachable avail s) : Inv s := by
  obtain ⟨sch, hsch⟩ := h
  rw [← hsch]
  exact inv_foldl avail sch initState inv_init

/-! ## Progress and termination -/

lemma pcSum_record_update (s : SysState) (w b : Nat) {sm fl : Nat → Nat}
    {ab : Nat → Bool} {lg : List (String × Nat × Bool)} (hw : w < 5)
    (hb : b = s.pc w + 1) :
    pcSum { sems := sm, flags := fl, pc := Function.update s.pc w b,
            aborted := ab, log := lg } = pcSum s + 1 := by
  show Function.update s.pc w b 0 + Function.update s.pc w b 1 + Function.update s.pc w b 2
      + Function.update s.pc w b 3 + Function.update s.pc w b 4 = pcSum s + 1
  unfold pcSum
  subst hb
  interval_cases w <;> simp [Function.update_apply] <;> omega

lemma countW_zero (f : Nat → Bool) (h : ∀ x, x < 5 → f x = false) : countW f = 0 := by
  simp [countW, h 0 (by norm_num), h 1 (by norm_num), h 2 (by norm_num),
    h 3 (by norm_num), h 4 (by norm_num)]

/-- In any state satisfying the semaphore equations, a child about to
execute its first `checkSetFlag` finds the flag clear. -/
lemma check1_flag_zero (s : SysState) (w : Nat) (hw : w < 5)
    (hres : ∀ r, r < 5 → s.sems r + holders s r = 1)
    (hflag : ∀ r, r < 5 → s.flags r = flaggers s r)
    (hp : s.pc w = 3) : s.flags (sem1 w) = 0 := by
  have hhold : holdsRes s w (sem1 w) = true := by simp [holdsRes, hp, holds1]
  have hfr : flagsRes s w (sem1 w) = false := by simp [flagsRes, hp, flagged1, flagged2]
  rw [hflag (sem1 w) (sem1_lt w hw),
    flaggers_eq_single s w (sem1 w) hw (hres (sem1 w) (sem1_lt w hw)) hhold, hfr]
  simp

/-- Same for the second `checkSetFlag`. -/
lemma check2_flag_zero (s : SysState) (w : Nat) (hw : w < 5)
    (hres : ∀ r, r < 5 → s.sems r + holders s r = 1)
    (hflag : ∀ r, r < 5 → s.flags r = flaggers s r)
    (hp : s.pc w = 4) : s.flags (sem2 w) = 0 := by
  have hhold : holdsRes s w (sem2 w) = true := by simp [holdsRes, hp, holds2]
  have hne12 : (sem1 w == sem2 w) = false := by
    rw [beq_eq_false_iff_ne]; exact sem1_ne_sem2 w hw
  have hfr : flagsRes s w (sem2 w) = false := by
    simp [flagsRes, hp, flagged1, flagged2, hne12]
  rw [hflag (sem2 w) (sem2_lt w hw),
    flaggers_eq_single s w (sem2 w) hw (hres (sem2 w) (sem2_lt w hw)) hhold, hfr]
  simp

/-- A child whose next operation is not a semaphore decrement always
advances its program counter by one (no blocking, and — given the
invariant — no `exit(-1)`). -/
lemma advance_nonblocking (avail : String → Bool) (s : SysState) (w : Nat) (hw : w < 5)
    (hres : ∀ r, r < 5 → s.sems r + holders s r = 1)
    (hflag : ∀ r, r < 5 → s.flags r = flaggers s r)
    (h3 : 3 ≤ s.pc w) (h13 : s.pc w ≤ 13) :
    pcSum (wstep avail s w) = pcSum s + 1 := by
  have hwp : w < PROC_COUNT := hw
  unfold wstep
  simp only [hwp, if_true]
  obtain ⟨p, hp⟩ : ∃ p, s.pc w = p := ⟨_, rfl⟩
  rw [hp]
  rw [hp] at h3 h13
  interval_cases p
  · show pcSum (execOp avail w (.checkSetFlag (sem1 w)) s) = pcSum s + 1
    have hz := check1_flag_zero s w hw hres hflag hp
    simp only [execOp]
    rw [if_pos hz]
    exact pcSum_record_update s w _ hw rfl
  · show pcSum (execOp avail w (.checkSetFlag (sem2 w)) s) = pcSum s + 1
    have hz := check2_flag_zero s w hw hres hflag hp
    simp only [execOp]
    rw [if_pos hz]
    exact pcSum_record_update s w _ hw rfl
  · show pcSum (execOp avail w (.append (db1filename w) true) s) = pcSum s + 1
    simp only [execOp]
    exact pcSum_record_update s w _ hw rfl
  · show pcSum (execOp avail w (.append (db2filename w) true) s) = pcSum s + 1
    simp only [execOp]
    exact pcSum_record_update s w _ hw rfl
  · show pcSum (execOp avail w (.append (db1filename w) false) s) = pcSum s + 1
    simp only [execOp]
    exact pcSum_record_update s w _ hw rfl
  · show pcSum (execOp avail w (.append (db2filename w) false) s) = pcSum s + 1
    simp only [execOp]
    exact pcSum_record_update s w _ hw rfl
  · show pcSum (execOp avail w (.clearFlag (sem1 w)) s) = pcSum s + 1
    simp only [execOp]
    exact pcSum_record_update s w _ hw rfl
  · show pcSum (execOp avail w (.release (sem1 w)) s) = pcSum s + 1
    simp only [execOp]
    exact pcSum_record_update s w _ hw rfl
  · show pcSum (execOp avail w (.clearFlag (sem2 w)) s) = pcSum s + 1
    simp only [execOp]
    exact pcSum_record_update s w _ hw rfl
  · show pcSum (execOp avail w (.release (sem2 w)) s) = pcSum s + 1
    simp only [execOp]
    exact pcSum_record_update s w _ hw rfl
  · show pcSum (execOp avail w (.release 5) s) = pcSum s + 1
    simp only [execOp]
    exact pcSum_record_update s w _ hw rfl

/-- A child at the gate acquires it and advances when the gate
semaphore is nonzero. -/
lemma advance_acq_gate (avail : String → Bool) (s : SysState) (w : Nat) (hw : w < 5)
    (hp : s.pc w = 0) (hz : s.sems 5 ≠ 0) :
    pcSum (wstep avail s w) = pcSum s + 1 := by
  have hwp : w < PROC_COUNT := hw
  unfold wstep
  simp only [hwp, if_true]
  rw [hp]
  show pcSum (execOp avail w (.acquire 5) s) = pcSum s + 1
  simp only [execOp]
  rw [if_neg hz]
  exact pcSum_record_update s w _ hw rfl

/-- A child at its first resource acquisition advances when that
semaphore is nonzero. -/
lemma advance_acq1 (avail : String → Bool) (s : SysState) (w : Nat) (hw : w < 5)
    (hp : s.pc w = 1) (hz : s.sems (sem1 w) ≠ 0) :
    pcSum (wstep avail s w) = pcSum s + 1 := by
  have hwp : w < PROC_COUNT := hw
  unfold wstep
  simp only [hwp, if_true]
  rw [hp]
  show pcSum (execOp avail w (.acquire (sem1 w)) s) = pcSum s + 1
  simp only [execOp]
  rw [if_neg hz]
  exact pcSum_record_update s w _ hw rfl

/-- A child at its second resource acquisition advances when that
semaphore is nonzero. -/
lemma advance_acq2 (avail : String → Bool) (s : SysState) (w : Nat) (hw : w < 5)
    (hp : s.pc w = 2) (hz : s.sems (sem2 w) ≠ 0) :
    pcSum (wstep avail s w) = pcSum s + 1 := by
  have hwp : w < PROC_COUNT := hw
  unfold wstep
  simp only [hwp, if_true]
  rw [hp]
  show pcSum (execOp avail w (.acquire (sem2 w)) s) = pcSum s + 1
  simp only [execOp]
  rw [if_neg hz]
  exact pcSum_record_update s w _ hw rfl

/-- Deadlock freedom: in any state satisfying the invariant in which
some child has not terminated, some child can take a step, and that
step advances the total progress measure by one. -/
theorem progress (avail : String → Bool) (s : SysState) (hI : Inv s)
    (hnf : ¬ Final s) : ∃ w, w < 5 ∧ pcSum (wstep avail s w) = pcSum s + 1 := by
  by_contra hcon
  push_neg at hcon
  obtain ⟨hpc, hgate, hres, hflag, hab⟩ := hI
  -- every unfinished child must be stuck at one of the three acquisitions
  have hstates : ∀ x, x < 5 → s.pc x = 0 ∨ s.pc x = 1 ∨ s.pc x = 2 ∨ s.pc x = 14 := by
    intro x hx
    by_contra hmid
    push_neg at hmid
    obtain ⟨m0, m1, m2, m14⟩ := hmid
    have hle := hpc x hx
    exact hcon x hx (advance_nonblocking avail s x hx hres hflag (by omega) (by omega))
  -- a child waiting for its first resource finds it free: its only
  -- holders could be itself (not there yet) or holders of second
  -- resources, and no stuck child holds a second resource
  have hno1 : ∀ x, x < 5 → s.pc x ≠ 1 := by
    intro x hx h1
    have hptr : ∀ y, y < 5 → holdsRes s y (sem1 x) = false := by
      intro y hy
      by_cases hyx : y = x
      · rw [hyx]
        simp [holdsRes, h1, holds1, holds2]
      · have hne : (sem1 y == sem1 x) = false := by
          rw [beq_eq_false_iff_ne]
          simp only [sem1]
          exact hyx
        rcases hstates y hy with h|h|h|h <;>
          simp [holdsRes, h, holds1, holds2, hne]
    have h0 : holders s (sem1 x) = 0 := by
      have hfold : holders s (sem1 x) = countW (fun y => holdsRes s y (sem1 x)) := rfl
      rw [hfold]
      exact countW_zero _ hptr
    have hz : s.sems (sem1 x) ≠ 0 := by
      have := hres (sem1 x) (sem1_lt x hx); omega
    exact hcon x hx (advance_acq1 avail s x hx h1 hz)
  -- a child waiting for its second resource waits on the next child in
  -- the ring, which must itself be waiting for its second resource
  have h2chain : ∀ x, x < 5 → s.pc x = 2 → s.pc (sem2 x) = 2 := by
    intro x hx h2
    by_contra hne2
    have hptr : ∀ y, y < 5 → holdsRes s y (sem2 x) = false := by
      intro y hy
      rcases hstates y hy with h|h|h|h
      · simp [holdsRes, h, holds1, holds2]
      · exact absurd h (hno1 y hy)
      · by_cases hys : sem1 y = sem2 x
        · exfalso
          apply hne2
          have hyx : y = sem2 x := by simpa [sem1] using hys
          rw [← hyx]
          exact h
        · have hne : (sem1 y == sem2 x) = false := by
            rw [beq_eq_false_iff_ne]; exact hys
          simp [holdsRes, h, holds1, holds2, hne]
      · simp [holdsRes, h, holds1, holds2]
    have h0 : holders s (sem2 x) = 0 := by
      have hfold : holders s (sem2 x) = countW (fun y => holdsRes s y (sem2 x)) := rfl
      rw [hfold]
      exact countW_zero _ hptr
    have hz : s.sems (sem2 x) ≠ 0 := by
      have := hres (sem2 x) (sem2_lt x hx); omega
    exact hcon x hx (advance_acq2 avail s x hx h2 hz)
  -- if any child were waiting for its second resource, the whole ring
  -- would be, and then five children would sit inside the 4-slot gate
  have hno2 : ∀ x, x < 5 → s.pc x ≠ 2 := by
    intro x hx h2
    have hall : s.pc 0 = 2 ∧ s.pc 1 = 2 ∧ s.pc 2 = 2 ∧ s.pc 3 = 2 ∧ s.pc 4 = 2 := by
      interval_cases x
      · have c0 : s.pc 1 = 2 := by have := h2chain 0 (by norm_num) h2; simpa [sem2] using this
        have c1 : s.pc 2 = 2 := by have := h2chain 1 (by norm_num) c0; simpa [sem2] using this
        have c2 : s.pc 3 = 2 := by have := h2chain 2 (by norm_num) c1; simpa [sem2] using this
        have c3 : s.pc 4 = 2 := by have := h2chain 3 (by norm_num) c2; simpa [sem2] using this
        exact ⟨h2, c0, c1, c2, c3⟩
      · have c0 : s.pc 2 = 2 := by have := h2chain 1 (by norm_num) h2; simpa [sem2] using this
        have c1 : s.pc 3 = 2 := by have := h2chain 2 (by norm_num) c0; simpa [sem2] using this
        have c2 : s.pc 4 = 2 := by have := h2chain 3 (by norm_num) c1; simpa [sem2] using this
        have c3 : s.pc 0 = 2 := by have := h2chain 4 (by norm_num) c2; simpa [sem2] using this
        exact ⟨c3, h2, c0, c1, c2⟩
      · have c0 : s.pc 3 = 2 := by have := h2chain 2 (by norm_num) h2; simpa [sem2] using this
        have c1 : s.pc 4 = 2 := by have := h2chain 3 (by norm_num) c0; simpa [sem2] using this
        have c2 : s.pc 0 = 2 := by have := h2chain 4 (by norm_num) c1; simpa [sem2] using this
        have c3 : s.pc 1 = 2 := by have := h2chain 0 (by norm_num) c2; simpa [sem2] using this
        exact ⟨c2, c3, h2, c0, c1⟩
      · have c0 : s.pc 4 = 2 := by have := h2chain 3 (by norm_num) h2; simpa [sem2] using this
        have c1 : s.pc 0 = 2 := by have := h2chain 4 (by norm_num) c0; simpa [sem2] using this
        have c2 : s.pc 1 = 2 := by have := h2chain 0 (by norm_num) c1; simpa [sem2] using this
        have c3 : s.pc 2 = 2 := by have := h2chain 1 (by norm_num) c2; simpa [sem2] using this
        exact ⟨c1, c2, c3, h2, c0⟩
      · have c0 : s.pc 0 = 2 := by have := h2chain 4 (by norm_num) h2; simpa [sem2] using this
        have c1 : s.pc 1 = 2 := by have := h2chain 0 (by norm_num) c0; simpa [sem2] using this
        have c2 : s.pc 2 = 2 := by have := h2chain 1 (by norm_num) c1; simpa [sem2] using this
        have c3 : s.pc 3 = 2 := by have := h2chain 2 (by norm_num) c2; simpa [sem2] using this
        exact ⟨c0, c1, c2, c3, h2⟩
    obtain ⟨g0, g1, g2, g3, g4⟩ := hall
    have hfive : gateCount s = 5 := by
      rw [gateCount_def]
      simp [countW, g0, g1, g2, g3, g4, inGate]
    omega
  -- now everyone is at the gate or done; the gate cannot be full
  have hno0 : ∀ x, x < 5 → s.pc x ≠ 0 := by
    intro x hx h0
    have hg0 : gateCount s = 0 := by
      rw [gateCount_def]
      apply countW_zero
      intro y hy
      rcases hstates y hy with h|h|h|h
      · simp [inGate, h]
      · exact absurd h (hno1 y hy)
      · exact absurd h (hno2 y hy)
      · simp [inGate, h]
    have hz : s.sems 5 ≠ 0 := by omega
    exact hcon x hx (advance_acq_gate avail s x hx h0 hz)
  apply hnf
  intro x hx
  rcases hstates x hx with h|h|h|h
  · exact absurd h (hno0 x hx)
  · exact absurd h (hno1 x hx)
  · exact absurd h (hno2 x hx)
  · exact h

lemma pcSum_le_70 (s : SysState) (hpc : ∀ x, x < 5 → s.pc x ≤ 14) : pcSum s ≤ 70 := by
  have h0 := hpc 0 (by norm_num)
  have h1 := hpc 1 (by norm_num)
  have h2 := hpc 2 (by norm_num)
  have h3 := hpc 3 (by norm_num)
  have h4 := hpc 4 (by norm_num)
  unfold pcSum
  omega

lemma final_iff_pcSum (s : SysState) (hpc : ∀ x, x < 5 → s.pc x ≤ 14) :
    Final s ↔ pcSum s = 70 := by
  have h0 := hpc 0 (by norm_num)
  have h1 := hpc 1 (by norm_num)
  have h2 := hpc 2 (by norm_num)
  have h3 := hpc 3 (by norm_num)
  have h4 := hpc 4 (by norm_num)
  constructor
  · intro h
    have e0 := h 0 (by norm_num)
    have e1 := h 1 (by norm_num)
    have e2 := h 2 (by norm_num)
    have e3 := h 3 (by norm_num)
    have e4 := h 4 (by norm_num)
    unfold pcSum
    omega
  · intro h x hx
    unfold pcSum at h
    interval_cases x <;> omega

/-- A scheduler step never reads the log or the sink availability for
anything except the log itself, so states agreeing off the log stay in
agreement under any two availability functions. -/
lemma coreEq_wstep (avail1 avail2 : String → Bool) (s t : SysState) (w : Nat)
    (h : CoreEq s t) : CoreEq (wstep avail1 s w) (wstep avail2 t w) := by
  obtain ⟨h1, h2, h3, h4⟩ := h
  cases s with
  | mk ssems sflags spc sab slog =>
    cases t with
    | mk tsems tflags tpc tab tlog =>
      change ssems = tsems at h1
      change sflags = tflags at h2
      change spc = tpc at h3
      change sab = tab at h4
      subst h1; subst h2; subst h3; subst h4
      unfold wstep
      by_cases hw : w < PROC_COUNT
      · simp only [hw, if_true]
        cases hop : (open_and_write w).get? (spc w) with
        | none =>
            exact ⟨rfl, rfl, rfl, rfl⟩
        | some op =>
            cases op with
            | acquire k =>
                simp only [execOp]
                by_cases hz : ssems k = 0
                · simp only [hz, if_true, if_pos]
                  exact ⟨rfl, rfl, rfl, rfl⟩
                · simp only [hz, if_neg, if_false]
                  exact ⟨rfl, rfl, rfl, rfl⟩
            | release k =>
                exact ⟨rfl, rfl, rfl, rfl⟩
            | checkSetFlag r =>
                simp only [execOp]
                by_cases hz : sflags r = 0
                · simp only [hz, if_true, if_pos]
                  exact ⟨rfl, rfl, rfl, rfl⟩
                · simp only [hz, if_neg, if_false]
                  exact ⟨rfl, rfl, rfl, rfl⟩
            | clearFlag r =>
                exact ⟨rfl, rfl, rfl, rfl⟩
            | append f u =>
                exact ⟨rfl, rfl, rfl, rfl⟩
      · simp only [hw, if_false]
        exact ⟨rfl, rfl, rfl, rfl⟩

lemma coreEq_foldl (avail1 avail2 : String → Bool) :
    ∀ (sch : List Nat) (s t : SysState), CoreEq s t →
      CoreEq (sch.foldl (wstep avail1) s) (sch.foldl (wstep avail2) t)
  | [], _, _, h => h
  | w :: tl, s, t, h =>
      coreEq_foldl avail1 avail2 tl _ _ (coreEq_wstep avail1 avail2 s t w h)

/-- Whole runs under any two sink-availability assumptions produce the
same semaphore values, flags, program counters and abort statuses. -/
theorem coreEq_run (avail1 avail2 : String → Bool) (sch : List Nat) :
    CoreEq (run avail1 sch) (run avail2 sch) :=
  coreEq_foldl avail1 avail2 sch initState initState ⟨rfl, rfl, rfl, rfl⟩

/-! ## Log accounting (for runs in which every file is writable) -/

lemma appended_step (w : Nat) (f : String) (p : Nat) (op : Op)
    (hget : (open_and_write w).get? p = some op) :
    appended w f (p + 1) = appended w f p + appendInc f op := by
  unfold appended
  rw [List.take_succ]
  rw [List.get?_eq_getElem?] at hget
  rw [hget]
  rw [List.countP_append]
  cases op <;> simp [List.countP_cons, appendInc]

lemma appendedSum_update (s : SysState) (w b : Nat) (sm fl : Nat → Nat)
    (ab : Nat → Bool) (lg : List (String × Nat × Bool)) (hw : w < 5) (f : String) :
    appendedSum { sems := sm, flags := fl, pc := Function.update s.pc w b,
                  aborted := ab, log := lg } f + appended w f (s.pc w)
      = appendedSum s f + appended w f b := by
  show appended 0 f (Function.update s.pc w b 0) + appended 1 f (Function.update s.pc w b 1)
      + appended 2 f (Function.update s.pc w b 2) + appended 3 f (Function.update s.pc w b 3)
      + appended 4 f (Function.update s.pc w b 4) + appended w f (s.pc w)
    = appendedSum s f + appended w f b
  unfold appendedSum
  interval_cases w <;> simp [Function.update_apply] <;> omega


lemma logInv_wstep (s : SysState) (w : Nat) (hI : Inv s) (hL : LogInv s) :
    LogInv (wstep (fun _ => true) s w) := by
  obtain ⟨hpc, hgate, hres, hflag, hab⟩ := hI
  unfold wstep
  by_cases hw : w < PROC_COUNT
  · simp only [hw, if_true]
    have hw5 : w < 5 := hw
    have hple : s.pc w ≤ 14 := hpc w hw5
    obtain ⟨p, hp⟩ : ∃ p, s.pc w = p := ⟨_, rfl⟩
    rw [hp]
    rw [hp] at hple
    interval_cases p
    · show LogInv (execOp (fun _ => true) w (.acquire 5) s)
      simp only [execOp]
      by_cases hz : s.sems 5 = 0
      · simp only [hz, if_true, if_pos]; exact hL
      · simp only [hz, if_neg, if_false]
        intro f
        have hget : (open_and_write w).get? (s.pc w) = some (.acquire 5) := by rw [hp]; rfl
        have hstep := appended_step w f (s.pc w) _ hget
        have hinc : appendInc f (Op.acquire 5) = 0 := rfl
        have hupd := appendedSum_update s w (s.pc w + 1)
          (Function.update s.sems 5 (s.sems 5 - 1)) s.flags s.aborted s.log hw5 f
        have hLf := hL f
        show s.log.countP (fun e => e.1 == f) = _
        omega
    · show LogInv (execOp (fun _ => true) w (.acquire (sem1 w)) s)
      simp only [execOp]
      by_cases hz : s.sems (sem1 w) = 0
      · simp only [hz, if_true, if_pos]; exact hL
      · simp only [hz, if_neg, if_false]
        intro f
        have hget : (open_and_write w).get? (s.pc w) = some (.acquire (sem1 w)) := by rw [hp]; rfl
        have hstep := appended_step w f (s.pc w) _ hget
        have hinc : appendInc f (Op.acquire (sem1 w)) = 0 := rfl
        have hupd := appendedSum_update s w (s.pc w + 1)
          (Function.update s.sems (sem1 w) (s.sems (sem1 w) - 1)) s.flags s.aborted s.log hw5 f
        have hLf := hL f
        show s.log.countP (fun e => e.1 == f) = _
        omega
    · show LogInv (execOp (fun _ => true) w (.acquire (sem2 w)) s)
      simp only [execOp]
      by_cases hz : s.sems (sem2 w) = 0
      · simp only [hz, if_true, if_pos]; exact hL
      · simp only [hz, if_neg, if_false]
        intro f
        have hget : (open_and_write w).get? (s.pc w) = some (.acquire (sem2 w)) := by rw [hp]; rfl
        have hstep := appended_step w f (s.pc w) _ hget
        have hinc : appendInc f (Op.acquire (sem2 w)) = 0 := rfl
        have hupd := appendedSum_update s w (s.pc w + 1)
          (Function.update s.sems (sem2 w) (s.sems (sem2 w) - 1)) s.flags s.aborted s.log hw5 f
        have hLf := hL f
        show s.log.countP (fun e => e.1 == f) = _
        omega
    · show LogInv (execOp (fun _ => true) w (.checkSetFlag (sem1 w)) s)
      simp only [execOp]
      rw [if_pos (check1_flag_zero s w hw5 hres hflag hp)]
      intro f
      have hget : (open_and_write w).get? (s.pc w) = some (.checkSetFlag (sem1 w)) := by rw [hp]; rfl
      have hstep := appended_step w f (s.pc w) _ hget
      have hinc : appendInc f (Op.checkSetFlag (sem1 w)) = 0 := rfl
      have hupd := appendedSum_update s w (s.pc w + 1)
        s.sems (Function.update s.flags (sem1 w) 1) s.aborted s.log hw5 f
      have hLf := hL f
      show s.log.countP (fun e => e.1 == f) = _
      omega
    · show LogInv (execOp (fun _ => true) w (.checkSetFlag (sem2 w)) s)
      simp only [execOp]
      rw [if_pos (check2_flag_zero s w hw5 hres hflag hp)]
      intro f
      have hget : (open_and_write w).get? (s.pc w) = some (.checkSetFlag (sem2 w)) := by rw [hp]; rfl
      have hstep := appended_step w f (s.pc w) _ hget
      have hinc : appendInc f (Op.checkSetFlag (sem2 w)) = 0 := rfl
      have hupd := appendedSum_update s w (s.pc w + 1)
        s.sems (Function.update s.flags (sem2 w) 1) s.aborted s.log hw5 f
      have hLf := hL f
      show s.log.countP (fun e => e.1 == f) = _
      omega
    · show LogInv (execOp (fun _ => true) w (.append (db1filename w) true) s)
      simp only [execOp, if_true]
      intro f
      have hget : (open_and_write w).get? (s.pc w) = some (.append (db1filename w) true) := by rw [hp]; rfl
      have hstep := appended_step w f (s.pc w) _ hget
      simp only [appendInc] at hstep
      have hupd := appendedSum_update s w (s.pc w + 1)
        s.sems s.flags s.aborted (s.log ++ [(db1filename w, w, true)]) hw5 f
      have hLf := hL f
      show (s.log ++ [(db1filename w, w, true)]).countP (fun e => e.1 == f) = _
      rw [List.countP_append]
      simp only [List.countP_cons, List.countP_nil]
      omega
    · show LogInv (execOp (fun _ => true) w (.append (db2filename w) true) s)
      simp only [execOp, if_true]
      intro f
      have hget : (open_and_write w).get? (s.pc w) = some (.append (db2filename w) true) := by rw [hp]; rfl
      have hstep := appended_step w f (s.pc w) _ hget
      simp only [appendInc] at hstep
      have hupd := appendedSum_update s w (s.pc w + 1)
        s.sems s.flags s.aborted (s.log ++ [(db2filename w, w, true)]) hw5 f
      have hLf := hL f
      show (s.log ++ [(db2filename w, w, true)]).countP (fun e => e.1 == f) = _
      rw [List.countP_append]
      simp only [List.countP_cons, List.countP_nil]
      omega
    · show LogInv (execOp (fun _ => true) w (.append (db1filename w) false) s)
      simp only [execOp, if_true]
      intro f
      have hget : (open_and_write w).get? (s.pc w) = some (.append (db1filename w) false) := by rw [hp]; rfl
      have hstep := appended_step w f (s.pc w) _ hget
      simp only [appendInc] at hstep
      have hupd := appendedSum_update s w (s.pc w + 1)
        s.sems s.flags s.aborted (s.log ++ [(db1filename w, w, false)]) hw5 f
      have hLf := hL f
      show (s.log ++ [(db1filename w, w, false)]).countP (fun e => e.1 == f) = _
      rw [List.countP_append]
      simp only [List.countP_cons, List.countP_nil]
      omega
    · show LogInv (execOp (fun _ => true) w (.append (db2filename w) false) s)
      simp only [execOp, if_true]
      intro f
      have hget : (open_and_write w).get? (s.pc w) = some (.append (db2filename w) false) := by rw [hp]; rfl
      have hstep := appended_step w f (s.pc w) _ hget
      simp only [appendInc] at hstep
      have hupd := appendedSum_update s w (s.pc w + 1)
        s.sems s.flags s.aborted (s.log ++ [(db2filename w, w, false)]) hw5 f
      have hLf := hL f
      show (s.log ++ [(db2filename w, w, false)]).countP (fun e => e.1 == f) = _
      rw [List.countP_append]
      simp only [List.countP_cons, List.countP_nil]
      omega
    · show LogInv (execOp (fun _ => true) w (.clearFlag (sem1 w)) s)
      simp only [execOp]
      intro f
      have hget : (open_and_write w).get? (s.pc w) = some (.clearFlag (sem1 w)) := by rw [hp]; rfl
      have hstep := appended_step w f (s.pc w) _ hget
      have hinc : appendInc f (Op.clearFlag (sem1 w)) = 0 := rfl
      have hupd := appendedSum_update s w (s.pc w + 1)
        s.sems (Function.update s.flags (sem1 w) 0) s.aborted s.log hw5 f
      have hLf := hL f
      show s.log.countP (fun e => e.1 == f) = _
      omega
    · show LogInv (execOp (fun _ => true) w (.release (sem1 w)) s)
      simp only [execOp]
      intro f
      have hget : (open_and_write w).get? (s.pc w) = some (.release (sem1 w)) := by rw [hp]; rfl
      have hstep := appended_step w f (s.pc w) _ hget
      have hinc : appendInc f (Op.release (sem1 w)) = 0 := rfl
      have hupd := appendedSum_update s w (s.pc w + 1)
        (Function.update s.sems (sem1 w) (s.sems (sem1 w) + 1)) s.flags s.aborted s.log hw5 f
      have hLf := hL f
      show s.log.countP (fun e => e.1 == f) = _
      omega
    · show LogInv (execOp (fun _ => true) w (.clearFlag (sem2 w)) s)
      simp only [execOp]
      intro f
      have hget : (open_and_write w).get? (s.pc w) = some (.clearFlag (sem2 w)) := by rw [hp]; rfl
      have hstep := appended_step w f (s.pc w) _ hget
      have hinc : appendInc f (Op.clearFlag (sem2 w)) = 0 := rfl
      have hupd := appendedSum_update s w (s.pc w + 1)
        s.sems (Function.update s.flags (sem2 w) 0) s.aborted s.log hw5 f
      have hLf := hL f
      show s.log.countP (fun e => e.1 == f) = _
      omega
    · show LogInv (execOp (fun _ => true) w (.release (sem2 w)) s)
      simp only [execOp]
      intro f
      have hget : (open_and_write w).get? (s.pc w) = some (.release (sem2 w)) := by rw [hp]; rfl
      have hstep := appended_step w f (s.pc w) _ hget
      have hinc : appendInc f (Op.release (sem2 w)) = 0 := rfl
      have hupd := appendedSum_update s w (s.pc w + 1)
        (Function.update s.sems (sem2 w) (s.sems (sem2 w) + 1)) s.flags s.aborted s.log hw5 f
      have hLf := hL f
      show s.log.countP (fun e => e.1 == f) = _
      omega
    · show LogInv (execOp (fun _ => true) w (.release 5) s)
      simp only [execOp]
      intro f
      have hget : (open_and_write w).get? (s.pc w) = some (.release 5) := by rw [hp]; rfl
      have hstep := appended_step w f (s.pc w) _ hget
      have hinc : appendInc f (Op.release 5) = 0 := rfl
      have hupd := appendedSum_update s w (s.pc w + 1)
        (Function.update s.sems 5 (s.sems 5 + 1)) s.flags s.aborted s.log hw5 f
      have hLf := hL f
      show s.log.countP (fun e => e.1 == f) = _
      omega
    · show LogInv s
      exact hL
  · simp only [hw, if_false]
    exact hL

lemma logInv_init : LogInv initState := by
  intro f
  rfl

lemma invLog_foldl :
    ∀ (sch : List Nat) (s : SysState), Inv s → LogInv s →
      Inv (sch.foldl (wstep (fun _ => true)) s) ∧ LogInv (sch.foldl (wstep (fun _ => true)) s)
  | [], _, hI, hL => ⟨hI, hL⟩
  | w :: tl, s, hI, hL =>
      invLog_foldl tl _ (inv_wstep (fun _ => true) s w hI) (logInv_wstep s w hI hL)

/-- In every reachable state of a run with all files writable, the log
matches the per-child append accounting. -/
theorem logInv_reachable (s : SysState) (h : Reachable (fun _ => true) s) :
    LogInv s := by
  obtain ⟨sch, hsch⟩ := h
  rw [← hsch]
  exact (invLog_foldl sch initState inv_init logInv_init).2

lemma countW_le_one_unique (f : Nat → Bool) (hc : countW f ≤ 1) (w1 w2 : Nat)
    (h1 : w1 < 5) (h2 : w2 < 5) (hf1 : f w1 = true) (hf2 : f w2 = true) : w1 = w2 := by
  interval_cases w1 <;> interval_cases w2 <;>
    first
      | rfl
      | (exfalso; simp [countW, hf1, hf2] at hc; omega)
      | (exfalso; simp [countW, hf1, hf2] at hc)

/-! ## The claims -/

/-- Claim C1 (for the code's `N = 5`): running the five workers to
completion terminates with no run hanging.  In every reachable state
the progress measure is at most 70 = 5 · 14, the runs that have reached
70 are exactly the fully terminated ones, and from every reachable
not-yet-final state some worker can take a step that strictly increases
the measure — so no reachable state is deadlocked and every maximal
schedule terminates with all five workers done within 70 productive
steps. -/
theorem C1_termination_no_hang (avail : String → Bool) (s : SysState)
    (h : Reachable avail s) :
    pcSum s ≤ 70 ∧ (Final s ↔ pcSum s = 70)
      ∧ (¬ Final s → ∃ w, w < 5 ∧ pcSum (wstep avail s w) = pcSum s + 1) := by
  have hI := inv_reachable avail s h
  exact ⟨pcSum_le_70 s hI.1, final_iff_pcSum s hI.1,
    fun hnf => progress avail s hI hnf⟩

/-- Witness for C1 at the initial state (the empty schedule). -/
theorem C1_termination_no_hang_witness :
    pcSum initState ≤ 70 ∧ (Final initState ↔ pcSum initState = 70)
      ∧ (¬ Final initState →
          ∃ w, w < 5 ∧ pcSum (wstep (fun _ => true) initState w) = pcSum initState + 1) :=
  C1_termination_no_hang (fun _ => true) initState ⟨[], rfl⟩

/-- Claim C2: mutual exclusion.  In every reachable state, no resource
lock is held by two distinct workers: each per-resource semaphore is
initialized to 1 and `semop` decrements it only when positive, so the
holder of each resource is unique. -/
theorem C2_mutual_exclusion (avail : String → Bool) (s : SysState)
    (h : Reachable avail s) (r : Nat) (hr : r < 5) (w1 w2 : Nat)
    (h1 : w1 < 5) (h2 : w2 < 5)
    (hh1 : holdsRes s w1 r = true) (hh2 : holdsRes s w2 r = true) : w1 = w2 := by
  obtain ⟨-, -, hres, -, -⟩ := inv_reachable avail s h
  have hfold : holders s r = countW (fun x => holdsRes s x r) := rfl
  have hr1 := hres r hr
  rw [hfold] at hr1
  exact countW_le_one_unique (fun x => holdsRes s x r) (by omega) w1 w2 h1 h2 hh1 hh2

/-- Witness for C2: after schedule `[0, 0]`, worker 0 holds resource 0,
and any two holders of resource 0 coincide. -/
theorem C2_mutual_exclusion_witness :
    holdsRes (run (fun _ => true) [0, 0]) 0 0 = true ∧ (0 : Nat) = 0 :=
  ⟨rfl, C2_mutual_exclusion (fun _ => true) (run (fun _ => true) [0, 0])
    ⟨[0, 0], rfl⟩ 0 (by norm_num) 0 0 (by norm_num) (by norm_num) rfl rfl⟩

/-- Claim C3: admission bound.  In every reachable state, the number of
workers that have completed `acquire_resource(semSet, 5)` (the gate's
enter) and not yet executed `release_resource(semSet, 5)` (the final
leave) — `gateCount` — is at most `N - 1 = 4`. -/
theorem C3_admission_bound (avail : String → Bool) (s : SysState)
    (h : Reachable avail s) : gateCount s ≤ 4 := by
  have hI := inv_reachable avail s h
  have := hI.2.1
  omega

/-- Witness for C3 at a mid-run reachable state. -/
theorem C3_admission_bound_witness :
    gateCount (run (fun _ => true) [0, 1, 2, 0, 1]) ≤ 4 :=
  C3_admission_bound (fun _ => true) _ ⟨[0, 1, 2, 0, 1], rfl⟩

/-- Claim C4: acquisition order.  Within the part of `open_and_write`
that precedes the workload (the first five operations, before any file
write), the potentially blocking operations are exactly, in order:
acquire the gate semaphore 5, acquire semaphore `i`, acquire semaphore
`(i+1) % 5`; and the whole program contains no other acquire.  (Only
`acquire` — `semop` with `sem_op = -1` — can block; releases and
shared-memory accesses never do.) -/
theorem C4_acquisition_order : ∀ i, i < 5 →
    ((open_and_write i).take 5).filter isAcquire
        = [Op.acquire 5, Op.acquire i, Op.acquire ((i + 1) % 5)]
      ∧ (open_and_write i).filter isAcquire
        = [Op.acquire 5, Op.acquire i, Op.acquire ((i + 1) % 5)] := by
  decide

/-- Witness for C4 at worker 0. -/
theorem C4_acquisition_order_witness :
    (0 : Nat) < 5
      ∧ (((open_and_write 0).take 5).filter isAcquire
            = [Op.acquire 5, Op.acquire 0, Op.acquire ((0 + 1) % 5)]
          ∧ (open_and_write 0).filter isAcquire
            = [Op.acquire 5, Op.acquire 0, Op.acquire ((0 + 1) % 5)]) :=
  ⟨by decide, C4_acquisition_order 0 (by decide)⟩

/-- Counterexample to claim C5 as stated: the claimed order — both busy
flags cleared before any lock release — is not the code's order.  In
`open_and_write 0`, operation 10 releases resource 0's lock while
resource 1's busy flag is only cleared by operation 11; the
post-workload suffix is not the claimed sequence. -/
theorem C5_counterexample :
    (open_and_write 0).get? 10 = some (Op.release 0)
    ∧ (open_and_write 0).get? 11 = some (Op.clearFlag 1)
    ∧ ¬ ((open_and_write 0).drop 9
        = [Op.clearFlag (sem1 0), Op.clearFlag (sem2 0), Op.release (sem1 0),
           Op.release (sem2 0), Op.release 5]) := by
  decide

/-- Claim C5 as amended: after its workload, worker `i` clears resource
`i`'s busy flag and releases resource `i`'s lock, then clears resource
`(i+1) % 5`'s busy flag and releases its lock, and calls the gate's
leave operation last, after both lock releases. -/
theorem C5_release_order : ∀ i, i < 5 →
    (open_and_write i).drop 9
      = [Op.clearFlag i, Op.release i, Op.clearFlag ((i + 1) % 5),
         Op.release ((i + 1) % 5), Op.release 5] := by
  decide

/-- Witness for C5 (amended) at worker 2. -/
theorem C5_release_order_witness :
    (2 : Nat) < 5
      ∧ (open_and_write 2).drop 9
          = [Op.clearFlag 2, Op.release 2, Op.clearFlag ((2 + 1) % 5),
             Op.release ((2 + 1) % 5), Op.release 5] :=
  ⟨by decide, C5_release_order 2 (by decide)⟩

/-- Counterexample to claim C6 as stated: observing a busy flag after
acquiring a lock does not abort the whole system with non-zero status.
Starting from a corrupted state in which resource 0's flag is already
set (unreachable in normal operation), worker 0 takes the
`ERROR ... exit(-1)` branch at its first flag check and dies with
status -1, and worker 4 — which shares corrupted resource 0 as its
second resource — takes the same branch at its second flag check and
also dies with status -1; but workers 1-3 still run to completion
unaborted, and the coordinator's own exit code is still 0 (`main`
ignores the children's statuses and ends with `exit(0)`). -/
theorem C6_counterexample :
    corruptedRun.aborted 0 = true ∧ workerExitCode corruptedRun 0 = -1
    ∧ corruptedRun.aborted 4 = true ∧ workerExitCode corruptedRun 4 = -1
    ∧ corruptedRun.pc 1 = 14 ∧ corruptedRun.aborted 1 = false
    ∧ corruptedRun.pc 2 = 14 ∧ corruptedRun.aborted 2 = false
    ∧ corruptedRun.pc 3 = 14 ∧ corruptedRun.aborted 3 = false
    ∧ (mainRun (fun _ => true) (fun _ => true)).exitCode = 0 :=
  ⟨rfl, rfl, rfl, rfl, rfl, rfl, rfl, rfl, rfl, rfl, rfl⟩

/-- Claim C6 as amended: if, after acquiring a resource's lock — at
either of its two check sites, the first (program counter 3, resource
`sem1 w`) or the second (program counter 4, resource `sem2 w`) — a
worker observes that resource's busy flag set, the worker prints the
error and aborts via `exit(-1)` with non-zero status; only the
observing worker dies (any other worker that checks the same corrupted
flag aborts likewise, while workers whose flags are clear continue,
and the coordinator still exits 0 — see `C6_counterexample`).
Otherwise the worker sets the flag to busy and proceeds.  In every
reachable state the flag a worker is about to check is 0, so the fault
never occurs when the semaphores behave as modelled. -/
theorem C6_violation_handling (avail : String → Bool) (s : SysState) (w r : Nat)
    (hw : w < 5)
    (hcheck : (s.pc w = 3 ∧ r = sem1 w) ∨ (s.pc w = 4 ∧ r = sem2 w)) :
    (s.flags r ≠ 0 →
        (wstep avail s w).aborted w = true ∧ (wstep avail s w).pc w = 14
        ∧ workerExitCode (wstep avail s w) w = -1)
    ∧ (s.flags r = 0 →
        (wstep avail s w).flags r = 1 ∧ (wstep avail s w).pc w = s.pc w + 1
        ∧ (wstep avail s w).aborted w = s.aborted w)
    ∧ (Reachable avail s → s.flags r = 0) := by
  have hwp : w < PROC_COUNT := hw
  have hred : wstep avail s w = execOp avail w (.checkSetFlag r) s := by
    unfold wstep
    simp only [hwp, if_true]
    rcases hcheck with ⟨hp, hr⟩ | ⟨hp, hr⟩ <;> rw [hp, hr] <;> rfl
  refine ⟨?_, ?_, ?_⟩
  · intro hnz
    rw [hred]
    simp only [execOp]
    rw [if_neg hnz]
    refine ⟨Function.update_same w true s.aborted, ?_, ?_⟩
    · exact Function.update_same w progLen s.pc
    · simp [workerExitCode, Function.update_same]
  · intro hz
    rw [hred]
    simp only [execOp]
    rw [if_pos hz]
    exact ⟨Function.update_same r 1 s.flags,
      Function.update_same w (s.pc w + 1) s.pc, rfl⟩
  · intro hreach
    obtain ⟨-, -, hres, hflag, -⟩ := inv_reachable avail s hreach
    rcases hcheck with ⟨hp, hr⟩ | ⟨hp, hr⟩
    · rw [hr]
      exact check1_flag_zero s w hw hres hflag hp
    · rw [hr]
      exact check2_flag_zero s w hw hres hflag hp

/-- Witness for C6 (amended): after schedule `[0, 0, 0, 0]`, worker 0
sits at its second flag check (program counter 4) and the checked flag
(resource `sem2 0`) is indeed 0. -/
theorem C6_violation_handling_witness :
    (run (fun _ => true) [0, 0, 0, 0]).flags (sem2 0) = 0 :=
  (C6_violation_handling (fun _ => true) (run (fun _ => true) [0, 0, 0, 0]) 0
    (sem2 0) (by norm_num) (Or.inr ⟨rfl, rfl⟩)).2.2 ⟨[0, 0, 0, 0], rfl⟩

/-- Counterexample to claim C7 as stated: making worker 2's sink
(`statistics.txt`) unwritable does not produce any non-zero status.
The run still completes (all five workers terminate), worker 2's exit
status is 0 — the program never checks the `ofstream` state, so no
fault is reported — and the coordinator exits 0. -/
theorem C7_counterexample :
    Final (run statsUnavailable seqSched)
    ∧ workerExitCode (run statsUnavailable seqSched) 2 = 0
    ∧ (run statsUnavailable seqSched).log.countP (fun e => e.1 == "statistics.txt") = 0
    ∧ (mainRun (fun _ => true) (fun _ => true)).exitCode = 0 := by
  refine ⟨?_, rfl, rfl, rfl⟩
  intro w hw
  interval_cases w <;> rfl

/-- Claim C7 as amended: sink unavailability is invisible to the
protocol.  Under any sink-availability assumption, every run has
exactly the same semaphore values, flags, program counters and abort
statuses as the corresponding fully-available run (only the appended
records differ); every worker's exit status is 0 in every reachable
state; no reachable non-final state is stuck; and the sequential
schedule still completes with all semaphores back at their initial
values (both resource locks and the gate slot are released). -/
theorem C7_sink_fault_isolation (avail : String → Bool) :
    (∀ sch, CoreEq (run avail sch) (run (fun _ => true) sch))
    ∧ (∀ s, Reachable avail s → ∀ w, w < 5 → workerExitCode s w = 0)
    ∧ (∀ s, Reachable avail s → ¬ Final s →
        ∃ w, w < 5 ∧ pcSum (wstep avail s w) = pcSum s + 1)
    ∧ Final (run avail seqSched)
    ∧ (∀ k, k < 6 → (run avail seqSched).sems k = initState.sems k) := by
  refine ⟨fun sch => coreEq_run avail (fun _ => true) sch, ?_, ?_, ?_, ?_⟩
  · intro s hs w hw
    obtain ⟨-, -, -, -, hab⟩ := inv_reachable avail s hs
    simp [workerExitCode, hab w hw]
  · intro s hs hnf
    exact progress avail s (inv_reachable avail s hs) hnf
  · obtain ⟨-, -, hpcEq, -⟩ := coreEq_run avail (fun _ => true) seqSched
    intro w hw
    rw [hpcEq]
    interval_cases w <;> rfl
  · obtain ⟨hsemEq, -, -, -⟩ := coreEq_run avail (fun _ => true) seqSched
    intro k hk
    rw [hsemEq]
    interval_cases k <;> rfl

/-- Witness for C7 (amended) in the fault-isolation scenario. -/
theorem C7_sink_fault_isolation_witness :
    Final (run statsUnavailable seqSched) :=
  (C7_sink_fault_isolation statsUnavailable).2.2.2.1

/-- Counterexample to claim C8 as stated: the Coordinator does not
clean up on its error exit paths.  If the third `shmget` fails, `main`
exits -1 leaving segments 0 and 1 allocated and the semaphore set in
place, destroying nothing; if the fourth `fork` fails, it exits -1
leaving all five segments and the semaphore set allocated. -/
theorem C8_counterexample :
    (mainRun (fun k => ! (k == 2)) (fun _ => true)).exitCode = -1
    ∧ (mainRun (fun k => ! (k == 2)) (fun _ => true)).shmCreated = [0, 1]
    ∧ (mainRun (fun k => ! (k == 2)) (fun _ => true)).shmDestroyed = []
    ∧ (mainRun (fun k => ! (k == 2)) (fun _ => true)).semSetRemoved = false
    ∧ (mainRun (fun _ => true) (fun i => ! (i == 3))).exitCode = -1
    ∧ (mainRun (fun _ => true) (fun i => ! (i == 3))).shmCreated = [0, 1, 2, 3, 4]
    ∧ (mainRun (fun _ => true) (fun i => ! (i == 3))).shmDestroyed = []
    ∧ (mainRun (fun _ => true) (fun i => ! (i == 3))).semSetRemoved = false :=
  ⟨rfl, rfl, rfl, rfl, rfl, rfl, rfl, rfl⟩

/-- Claim C8 as amended: teardown happens only on the success path.  If
`main` exits 0 it has destroyed exactly the segments it created,
removed the semaphore set and waited for the children; on every failure
exit (`exit(-1)` after a `shmget` or `fork` failure) it destroys no
segment and does not remove the semaphore set. -/
theorem C8_cleanup_success_only (shmOk forkOk : Nat → Bool) :
    ((mainRun shmOk forkOk).exitCode = 0 →
        (mainRun shmOk forkOk).shmDestroyed = (mainRun shmOk forkOk).shmCreated
        ∧ (mainRun shmOk forkOk).semSetRemoved = true
        ∧ (mainRun shmOk forkOk).waited = true)
    ∧ ((mainRun shmOk forkOk).exitCode ≠ 0 →
        (mainRun shmOk forkOk).shmDestroyed = []
        ∧ (mainRun shmOk forkOk).semSetRemoved = false) := by
  unfold mainRun
  cases hf : (List.range 5).find? (fun k => ! shmOk k) with
  | some k =>
      refine ⟨fun h => ?_, fun _ => ⟨rfl, rfl⟩⟩
      have h2 : (-1 : Int) = 0 := h
      exact absurd h2 (by decide)
  | none =>
      cases hg : (List.range 5).find? (fun i => ! forkOk i) with
      | some i =>
          refine ⟨fun h => ?_, fun _ => ⟨rfl, rfl⟩⟩
          have h2 : (-1 : Int) = 0 := h
          exact absurd h2 (by decide)
      | none =>
          exact ⟨fun _ => ⟨rfl, rfl, rfl⟩, fun h => absurd rfl h⟩

/-- Witness for C8 (amended) on the all-success path. -/
theorem C8_cleanup_success_only_witness :
    (mainRun (fun _ => true) (fun _ => true)).shmDestroyed
        = (mainRun (fun _ => true) (fun _ => true)).shmCreated
    ∧ (mainRun (fun _ => true) (fun _ => true)).semSetRemoved = true
    ∧ (mainRun (fun _ => true) (fun _ => true)).waited = true :=
  (C8_cleanup_success_only (fun _ => true) (fun _ => true)).1 rfl

/-- Counterexample to claim C9 as stated: after all five workers
complete, each sink holds 4 appended records, not 2 — every worker
appends a "Being used" and a "Free from" line to each of its two
files. -/
theorem C9_counterexample :
    Final (run (fun _ => true) seqSched)
    ∧ (run (fun _ => true) seqSched).log.countP (fun e => e.1 == "faculty.txt") = 4 := by
  refine ⟨?_, rfl⟩
  intro w hw
  interval_cases w <;> rfl

/-- Claim C9 as amended: the fixed lookup table maps worker `i` to the
two sinks `db1filename i` and `db2filename i`, arranged so that sink
`j` is used exactly by the two ring-adjacent workers `j` and
`(j-1) % 5` (worker `i` uses sink `j` iff `i = j` or `(i+1) % 5 = j`);
a full worker program appends exactly 2 records to each of its two
sinks and none elsewhere; and after any complete run with all sinks
writable, each sink has received exactly 4 appended records — two from
each of its two adjacent workers. -/
theorem C9_sink_topology_and_counts :
    (∀ j, j < 5 → ∀ i, i < 5 →
        ((db1filename i = db1filename j ∨ db2filename i = db1filename j)
          ↔ (i = j ∨ (i + 1) % 5 = j)))
    ∧ (∀ i, i < 5 → ∀ j, j < 5 →
        appended i (db1filename j) 14 = if i = j ∨ (i + 1) % 5 = j then 2 else 0)
    ∧ (∀ s, Reachable (fun _ => true) s → Final s → ∀ j, j < 5 →
        s.log.countP (fun e => e.1 == db1filename j) = 4) := by
  refine ⟨by decide, by decide, ?_⟩
  intro s hs hF j hj
  have hL := logInv_reachable s hs
  rw [hL]
  have e0 := hF 0 (by norm_num)
  have e1 := hF 1 (by norm_num)
  have e2 := hF 2 (by norm_num)
  have e3 := hF 3 (by norm_num)
  have e4 := hF 4 (by norm_num)
  unfold appendedSum
  rw [e0, e1, e2, e3, e4]
  interval_cases j <;> rfl

/-- Witness for C9 (amended): the completed sequential run puts 4
records in `faculty.txt` (sink 0). -/
theorem C9_sink_topology_and_counts_witness :
    (run (fun _ => true) seqSched).log.countP (fun e => e.1 == db1filename 0) = 4 :=
  (C9_sink_topology_and_counts).2.2 (run (fun _ => true) seqSched)
    ⟨seqSched, rfl⟩ (fun w hw => by interval_cases w <;> rfl) 0 (by norm_num)

/-- Claim C10: for every worker `i < 5`, the two computed semaphore
indices `sem1 i = i` and `sem2 i = (i+1 == 5) ? 0 : i+1` are distinct,
both lie in `0..4`, neither equals the gate index 5, and `sem2`
coincides with `(i+1) % 5`. -/
theorem C10_sem_indices : ∀ i, i < 5 →
    sem1 i ≠ sem2 i ∧ sem1 i < 5 ∧ sem2 i < 5 ∧ sem1 i ≠ 5 ∧ sem2 i ≠ 5
    ∧ sem2 i = (i + 1) % 5 := by
  decide

/-- Witness for C10 at worker 4 (the wrap-around case). -/
theorem C10_sem_indices_witness :
    (4 : Nat) < 5
      ∧ (sem1 4 ≠ sem2 4 ∧ sem1 4 < 5 ∧ sem2 4 < 5 ∧ sem1 4 ≠ 5 ∧ sem2 4 ≠ 5
          ∧ sem2 4 = (4 + 1) % 5) :=
  ⟨by decide, C10_sem_indices 4 (by decide)⟩

end SemAndShare


